import Mathlib

/-!
Verification of the music2bin core: the enumerated data model
(`ir/notation.rs`), the MusicBin binary codec (`bin_format/bin_encoder.rs`,
`bin_decoder.rs`), the duration arithmetic (`get_duration_numeric`,
`from_numeric_duration`), the tempo raw/real conversions, the
`MeasureChecker::remove_incomplete_voices` reconciliation pass and
`MusicalPart::insert_new_voice`.  Every definition is a shallow embedding of
the corresponding Rust item; machine integers are modelled as `Nat` with
explicit truncation where the source truncates.
-/

namespace MusicBin

/-- Beats enum from `ir/notation.rs` (discriminants 0..6). -/
inductive Beats
  | two
  | three
  | four
  | five
  | six
  | nine
  | twelve
deriving DecidableEq, Repr, Fintype

/-- Discriminant of `Beats` (`as u8`). -/
def Beats.toNat : Beats → Nat
  | .two => 0
  | .three => 1
  | .four => 2
  | .five => 3
  | .six => 4
  | .nine => 5
  | .twelve => 6

/-- FromPrimitive conversion for `Beats`. -/
def Beats.ofNat? : Nat → Option Beats
  | 0 => some .two
  | 1 => some .three
  | 2 => some .four
  | 3 => some .five
  | 4 => some .six
  | 5 => some .nine
  | 6 => some .twelve
  | _ => Option.none

/-- Numeric value of `Beats` (`impl From<Beats> for u32`). -/
def Beats.asU32 : Beats → Nat
  | .two => 2
  | .three => 3
  | .four => 4
  | .five => 5
  | .six => 6
  | .nine => 9
  | .twelve => 12

/-- BeatType enum from `ir/notation.rs` (discriminants 0..3). -/
inductive BeatType
  | two
  | four
  | eight
  | sixteen
deriving DecidableEq, Repr, Fintype

/-- Discriminant of `BeatType`. -/
def BeatType.toNat : BeatType → Nat
  | .two => 0
  | .four => 1
  | .eight => 2
  | .sixteen => 3

/-- FromPrimitive conversion for `BeatType`. -/
def BeatType.ofNat? : Nat → Option BeatType
  | 0 => some .two
  | 1 => some .four
  | 2 => some .eight
  | 3 => some .sixteen
  | _ => Option.none

/-- Numeric value of `BeatType` (`impl From<BeatType> for u32`). -/
def BeatType.asU32 : BeatType → Nat
  | .two => 2
  | .four => 4
  | .eight => 8
  | .sixteen => 16

/-- KeySignature enum (discriminants 0..11). -/
inductive KeySignature
  | cMajorAminor
  | gMajorEminor
  | dMajorBminor
  | aMajorFsminor
  | eMajorCsminor
  | bMajorGsminor
  | gbMajorEbminor
  | dbMajorBbminor
  | abMajorFminor
  | ebMajorCminor
  | bbMajorGminor
  | fMajorDminor
deriving DecidableEq, Repr, Fintype

/-- Discriminant of `KeySignature`. -/
def KeySignature.toNat : KeySignature → Nat
  | .cMajorAminor => 0
  | .gMajorEminor => 1
  | .dMajorBminor => 2
  | .aMajorFsminor => 3
  | .eMajorCsminor => 4
  | .bMajorGsminor => 5
  | .gbMajorEbminor => 6
  | .dbMajorBbminor => 7
  | .abMajorFminor => 8
  | .ebMajorCminor => 9
  | .bbMajorGminor => 10
  | .fMajorDminor => 11

/-- FromPrimitive conversion for `KeySignature`. -/
def KeySignature.ofNat? : Nat → Option KeySignature
  | 0 => some .cMajorAminor
  | 1 => some .gMajorEminor
  | 2 => some .dMajorBminor
  | 3 => some .aMajorFsminor
  | 4 => some .eMajorCsminor
  | 5 => some .bMajorGsminor
  | 6 => some .gbMajorEbminor
  | 7 => some .dbMajorBbminor
  | 8 => some .abMajorFminor
  | 9 => some .ebMajorCminor
  | 10 => some .bbMajorGminor
  | 11 => some .fMajorDminor
  | _ => Option.none

/-- MeasureStartEnd enum (discriminants 0..3). -/
inductive MeasureStartEnd
  | measureStart
  | measureEnd
  | repeatStart
  | repeatEnd
deriving DecidableEq, Repr, Fintype

/-- Discriminant of `MeasureStartEnd`. -/
def MeasureStartEnd.toNat : MeasureStartEnd → Nat
  | .measureStart => 0
  | .measureEnd => 1
  | .repeatStart => 2
  | .repeatEnd => 3

/-- FromPrimitive conversion for `MeasureStartEnd`. -/
def MeasureStartEnd.ofNat? : Nat → Option MeasureStartEnd
  | 0 => some .measureStart
  | 1 => some .measureEnd
  | 2 => some .repeatStart
  | 3 => some .repeatEnd
  | _ => Option.none

/-- Ending enum (discriminants 0..3). -/
inductive Ending
  | none
  | one
  | two
  | three
deriving DecidableEq, Repr, Fintype

/-- Discriminant of `Ending`. -/
def Ending.toNat : Ending → Nat
  | .none => 0
  | .one => 1
  | .two => 2
  | .three => 3

/-- FromPrimitive conversion for `Ending`. -/
def Ending.ofNat? : Nat → Option Ending
  | 0 => some .none
  | 1 => some .one
  | 2 => some .two
  | 3 => some .three
  | _ => Option.none

/-- DalSegno enum (discriminants 0..7). -/
inductive DalSegno
  | none
  | segnoMarker
  | codaMarker
  | daSegno
  | daCapo
  | daCapoalSegno
  | daCapoAlCoda
  | daCapoAlFine
deriving DecidableEq, Repr, Fintype

/-- Discriminant of `DalSegno`. -/
def DalSegno.toNat : DalSegno → Nat
  | .none => 0
  | .segnoMarker => 1
  | .codaMarker => 2
  | .daSegno => 3
  | .daCapo => 4
  | .daCapoalSegno => 5
  | .daCapoAlCoda => 6
  | .daCapoAlFine => 7

/-- FromPrimitive conversion for `DalSegno`. -/
def DalSegno.ofNat? : Nat → Option DalSegno
  | 0 => some .none
  | 1 => some .segnoMarker
  | 2 => some .codaMarker
  | 3 => some .daSegno
  | 4 => some .daCapo
  | 5 => some .daCapoalSegno
  | 6 => some .daCapoAlCoda
  | 7 => some .daCapoAlFine
  | _ => Option.none

/-- PhraseDynamics enum (discriminants 0..14). -/
inductive PhraseDynamics
  | none
  | sforzando
  | fortepiano
  | crescendo
  | diminuendo
  | niente
  | rinforzando
  | pianississimo
  | pianissimo
  | piano
  | mezzoPiano
  | mezzoForte
  | forte
  | fortissimo
  | fortississimo
deriving DecidableEq, Repr, Fintype

/-- Discriminant of `PhraseDynamics`. -/
def PhraseDynamics.toNat : PhraseDynamics → Nat
  | .none => 0
  | .sforzando => 1
  | .fortepiano => 2
  | .crescendo => 3
  | .diminuendo => 4
  | .niente => 5
  | .rinforzando => 6
  | .pianississimo => 7
  | .pianissimo => 8
  | .piano => 9
  | .mezzoPiano => 10
  | .mezzoForte => 11
  | .forte => 12
  | .fortissimo => 13
  | .fortississimo => 14

/-- FromPrimitive conversion for `PhraseDynamics`. -/
def PhraseDynamics.ofNat? : Nat → Option PhraseDynamics
  | 0 => some .none
  | 1 => some .sforzando
  | 2 => some .fortepiano
  | 3 => some .crescendo
  | 4 => some .diminuendo
  | 5 => some .niente
  | 6 => some .rinforzando
  | 7 => some .pianississimo
  | 8 => some .pianissimo
  | 9 => some .piano
  | 10 => some .mezzoPiano
  | 11 => some .mezzoForte
  | 12 => some .forte
  | 13 => some .fortissimo
  | 14 => some .fortississimo
  | _ => Option.none

/-- RhythmType enum (discriminants 0..7, shortest first). -/
inductive RhythmType
  | semiHemiDemiSemiQuaver
  | hemiDemiSemiQuaver
  | demiSemiQuaver
  | semiQuaver
  | quaver
  | crochet
  | minim
  | semiBreve
deriving DecidableEq, Repr, Fintype

/-- Discriminant of `RhythmType`. -/
def RhythmType.toNat : RhythmType → Nat
  | .semiHemiDemiSemiQuaver => 0
  | .hemiDemiSemiQuaver => 1
  | .demiSemiQuaver => 2
  | .semiQuaver => 3
  | .quaver => 4
  | .crochet => 5
  | .minim => 6
  | .semiBreve => 7

/-- FromPrimitive conversion for `RhythmType`. -/
def RhythmType.ofNat? : Nat → Option RhythmType
  | 0 => some .semiHemiDemiSemiQuaver
  | 1 => some .hemiDemiSemiQuaver
  | 2 => some .demiSemiQuaver
  | 3 => some .semiQuaver
  | 4 => some .quaver
  | 5 => some .crochet
  | 6 => some .minim
  | 7 => some .semiBreve
  | _ => Option.none

/-- Arpeggiate enum (discriminants 0..1). -/
inductive Arpeggiate
  | noArpeggiation
  | arpeggiate
deriving DecidableEq, Repr, Fintype

/-- Discriminant of `Arpeggiate` (also `bool::from`). -/
def Arpeggiate.toNat : Arpeggiate → Nat
  | .noArpeggiation => 0
  | .arpeggiate => 1

/-- FromPrimitive conversion for `Arpeggiate`. -/
def Arpeggiate.ofNat? : Nat → Option Arpeggiate
  | 0 => some .noArpeggiation
  | 1 => some .arpeggiate
  | _ => Option.none

/-- SpecialNote enum (discriminants 0..3). -/
inductive SpecialNote
  | none
  | acciatura
  | appogiatura
  | fermata
deriving DecidableEq, Repr, Fintype

/-- Discriminant of `SpecialNote`. -/
def SpecialNote.toNat : SpecialNote → Nat
  | .none => 0
  | .acciatura => 1
  | .appogiatura => 2
  | .fermata => 3

/-- FromPrimitive conversion for `SpecialNote`. -/
def SpecialNote.ofNat? : Nat → Option SpecialNote
  | 0 => some .none
  | 1 => some .acciatura
  | 2 => some .appogiatura
  | 3 => some .fermata
  | _ => Option.none

/-- Articulation enum (discriminants 0..7). -/
inductive Articulation
  | none
  | accent
  | strongAccent
  | staccato
  | staccatissimo
  | tenuto
  | detachedLegato
  | stress
deriving DecidableEq, Repr, Fintype

/-- Discriminant of `Articulation`. -/
def Articulation.toNat : Articulation → Nat
  | .none => 0
  | .accent => 1
  | .strongAccent => 2
  | .staccato => 3
  | .staccatissimo => 4
  | .tenuto => 5
  | .detachedLegato => 6
  | .stress => 7

/-- FromPrimitive conversion for `Articulation`. -/
def Articulation.ofNat? : Nat → Option Articulation
  | 0 => some .none
  | 1 => some .accent
  | 2 => some .strongAccent
  | 3 => some .staccato
  | 4 => some .staccatissimo
  | 5 => some .tenuto
  | 6 => some .detachedLegato
  | 7 => some .stress
  | _ => Option.none

/-- Trill enum (discriminants 0..2). -/
inductive Trill
  | none
  | diatonic
  | chromatic
deriving DecidableEq, Repr, Fintype

/-- Discriminant of `Trill`. -/
def Trill.toNat : Trill → Nat
  | .none => 0
  | .diatonic => 1
  | .chromatic => 2

/-- FromPrimitive conversion for `Trill`. -/
def Trill.ofNat? : Nat → Option Trill
  | 0 => some .none
  | 1 => some .diatonic
  | 2 => some .chromatic
  | _ => Option.none

/-- NoteConnection (tie) enum (discriminants 0..2). -/
inductive NoteConnection
  | none
  | startTie
  | endTie
deriving DecidableEq, Repr, Fintype

/-- Discriminant of `NoteConnection`. -/
def NoteConnection.toNat : NoteConnection → Nat
  | .none => 0
  | .startTie => 1
  | .endTie => 2

/-- FromPrimitive conversion for `NoteConnection`. -/
def NoteConnection.ofNat? : Nat → Option NoteConnection
  | 0 => some .none
  | 1 => some .startTie
  | 2 => some .endTie
  | _ => Option.none

/-- Chord enum (discriminants 0..1). -/
inductive Chord
  | noChord
  | chord
deriving DecidableEq, Repr, Fintype

/-- Discriminant of `Chord` (also `bool::from`). -/
def Chord.toNat : Chord → Nat
  | .noChord => 0
  | .chord => 1

/-- FromPrimitive conversion for `Chord`. -/
def Chord.ofNat? : Nat → Option Chord
  | 0 => some .noChord
  | 1 => some .chord
  | _ => Option.none

/-- SlurConnection enum (discriminants 0..2). -/
inductive SlurConnection
  | none
  | startSlur
  | endSlur
deriving DecidableEq, Repr, Fintype

/-- Discriminant of `SlurConnection`. -/
def SlurConnection.toNat : SlurConnection → Nat
  | .none => 0
  | .startSlur => 1
  | .endSlur => 2

/-- FromPrimitive conversion for `SlurConnection`. -/
def SlurConnection.ofNat? : Nat → Option SlurConnection
  | 0 => some .none
  | 1 => some .startSlur
  | 2 => some .endSlur
  | _ => Option.none

/-- Voice enum (discriminants 0..3). -/
inductive Voice
  | one
  | two
  | three
  | four
deriving DecidableEq, Repr, Fintype

/-- Discriminant of `Voice` (`as u8` / `as usize`). -/
def Voice.toNat : Voice → Nat
  | .one => 0
  | .two => 1
  | .three => 2
  | .four => 3

/-- FromPrimitive conversion for `Voice`. -/
def Voice.ofNat? : Nat → Option Voice
  | 0 => some .one
  | 1 => some .two
  | 2 => some .three
  | 3 => some .four
  | _ => Option.none

/-- TupletStartStop enum (discriminants 0..2). -/
inductive TupletStartStop
  | none
  | tupletStart
  | tupletStop
deriving DecidableEq, Repr, Fintype

/-- Discriminant of `TupletStartStop`. -/
def TupletStartStop.toNat : TupletStartStop → Nat
  | .none => 0
  | .tupletStart => 1
  | .tupletStop => 2

/-- FromPrimitive conversion for `TupletStartStop`. -/
def TupletStartStop.ofNat? : Nat → Option TupletStartStop
  | 0 => some .none
  | 1 => some .tupletStart
  | 2 => some .tupletStop
  | _ => Option.none

/-- TupletNumber enum (discriminants 0..3). -/
inductive TupletNumber
  | one
  | two
  | three
  | four
deriving DecidableEq, Repr, Fintype

/-- Discriminant of `TupletNumber`. -/
def TupletNumber.toNat : TupletNumber → Nat
  | .one => 0
  | .two => 1
  | .three => 2
  | .four => 3

/-- FromPrimitive conversion for `TupletNumber`. -/
def TupletNumber.ofNat? : Nat → Option TupletNumber
  | 0 => some .one
  | 1 => some .two
  | 2 => some .three
  | 3 => some .four
  | _ => Option.none

/-- TupletActual enum (discriminants 0..16; carries the actual-notes count). -/
inductive TupletActual
  | two
  | three
  | four
  | five
  | six
  | seven
  | eight
  | nine
  | ten
  | eleven
  | thirteen
  | fifteen
  | sixteen
  | seventeen
  | eighteen
  | twentyOne
  | twentyFive
deriving DecidableEq, Repr, Fintype

/-- Discriminant of `TupletActual`. -/
def TupletActual.toNat : TupletActual → Nat
  | .two => 0
  | .three => 1
  | .four => 2
  | .five => 3
  | .six => 4
  | .seven => 5
  | .eight => 6
  | .nine => 7
  | .ten => 8
  | .eleven => 9
  | .thirteen => 10
  | .fifteen => 11
  | .sixteen => 12
  | .seventeen => 13
  | .eighteen => 14
  | .twentyOne => 15
  | .twentyFive => 16

/-- FromPrimitive conversion for `TupletActual`. -/
def TupletActual.ofNat? : Nat → Option TupletActual
  | 0 => some .two
  | 1 => some .three
  | 2 => some .four
  | 3 => some .five
  | 4 => some .six
  | 5 => some .seven
  | 6 => some .eight
  | 7 => some .nine
  | 8 => some .ten
  | 9 => some .eleven
  | 10 => some .thirteen
  | 11 => some .fifteen
  | 12 => some .sixteen
  | 13 => some .seventeen
  | 14 => some .eighteen
  | 15 => some .twentyOne
  | 16 => some .twentyFive
  | _ => Option.none

/-- Numeric value of `TupletActual` (`AsU32::as_u32`). -/
def TupletActual.asU32 : TupletActual → Nat
  | .two => 2
  | .three => 3
  | .four => 4
  | .five => 5
  | .six => 6
  | .seven => 7
  | .eight => 8
  | .nine => 9
  | .ten => 10
  | .eleven => 11
  | .thirteen => 13
  | .fifteen => 15
  | .sixteen => 16
  | .seventeen => 17
  | .eighteen => 18
  | .twentyOne => 21
  | .twentyFive => 25

/-- TryFrom u32 conversion for `TupletActual`. -/
def TupletActual.ofU32? : Nat → Option TupletActual
  | 2 => some .two
  | 3 => some .three
  | 4 => some .four
  | 5 => some .five
  | 6 => some .six
  | 7 => some .seven
  | 8 => some .eight
  | 9 => some .nine
  | 10 => some .ten
  | 11 => some .eleven
  | 13 => some .thirteen
  | 15 => some .fifteen
  | 16 => some .sixteen
  | 17 => some .seventeen
  | 18 => some .eighteen
  | 21 => some .twentyOne
  | 25 => some .twentyFive
  | _ => Option.none

/-- TupletNormal enum (discriminants 0..8; carries the normal-notes count). -/
inductive TupletNormal
  | one
  | two
  | three
  | four
  | six
  | eight
  | nine
  | twelve
  | sixteen
deriving DecidableEq, Repr, Fintype

/-- Discriminant of `TupletNormal`. -/
def TupletNormal.toNat : TupletNormal → Nat
  | .one => 0
  | .two => 1
  | .three => 2
  | .four => 3
  | .six => 4
  | .eight => 5
  | .nine => 6
  | .twelve => 7
  | .sixteen => 8

/-- FromPrimitive conversion for `TupletNormal`. -/
def TupletNormal.ofNat? : Nat → Option TupletNormal
  | 0 => some .one
  | 1 => some .two
  | 2 => some .three
  | 3 => some .four
  | 4 => some .six
  | 5 => some .eight
  | 6 => some .nine
  | 7 => some .twelve
  | 8 => some .sixteen
  | _ => Option.none

/-- Numeric value of `TupletNormal` (`AsU32::as_u32`). -/
def TupletNormal.asU32 : TupletNormal → Nat
  | .one => 1
  | .two => 2
  | .three => 3
  | .four => 4
  | .six => 6
  | .eight => 8
  | .nine => 9
  | .twelve => 12
  | .sixteen => 16

/-- TryFrom u32 conversion for `TupletNormal`. -/
def TupletNormal.ofU32? : Nat → Option TupletNormal
  | 1 => some .one
  | 2 => some .two
  | 3 => some .three
  | 4 => some .four
  | 6 => some .six
  | 8 => some .eight
  | 9 => some .nine
  | 12 => some .twelve
  | 16 => some .sixteen
  | _ => Option.none

/-- NumericPitchRest from `ir/notation.rs`: numeric 0 is a rest, 1..97 the
supported pitches (MIDI pitch minus 11). -/
inductive NumericPitchRest
  | rest
  | pitch (v : Nat)
deriving DecidableEq, Repr

/-- NumericPitchRest.get_numeric_value. -/
def NumericPitchRest.getNumericValue : NumericPitchRest → Nat
  | .rest => 0
  | .pitch v => v

/-- NumericPitchRest.new_from_numeric: 0 maps to Rest, any other value to
Pitch of that value (no range check in the source). -/
def NumericPitchRest.newFromNumeric (noteVal : Nat) : NumericPitchRest :=
  if noteVal = 0 then .rest else .pitch noteVal

/-- TimeModification struct: a tuplet ratio. -/
structure TimeModification where
  actualNotes : TupletActual
  normalNotes : TupletNormal
deriving DecidableEq, Repr, Fintype

/-- MeasureInitializer struct; `tempo` is the raw 7-bit tempo byte held by
the `Tempo` newtype. -/
structure MeasureInitializer where
  beats : Beats
  beatType : BeatType
  keySig : KeySignature
  tempo : Nat
deriving DecidableEq, Repr

/-- MeasureMetaData struct. -/
structure MeasureMetaData where
  startEnd : MeasureStartEnd
  ending : Ending
  dalSegno : DalSegno
deriving DecidableEq, Repr

/-- NoteData struct. -/
structure NoteData where
  noteRest : NumericPitchRest
  phraseDynamics : PhraseDynamics
  noteType : RhythmType
  dotted : Bool
  arpeggiate : Arpeggiate
  specialNote : SpecialNote
  articulation : Articulation
  trill : Trill
  ties : NoteConnection
  chord : Chord
  slur : SlurConnection
  voice : Voice
deriving DecidableEq, Repr

/-- TupletData struct. -/
structure TupletData where
  startStop : TupletStartStop
  tupletNumber : TupletNumber
  actualNotes : TupletActual
  normalNotes : TupletNormal
  dotted : Bool
deriving DecidableEq, Repr, Fintype

/-- MusicElement tagged union. -/
inductive MusicElement
  | measureInit (m : MeasureInitializer)
  | measureMeta (m : MeasureMetaData)
  | noteRest (n : NoteData)
  | tuplet (t : TupletData)
deriving DecidableEq, Repr

/-- Tempo::new_from_raw: clamps the raw tempo byte at 127. -/
def tempoNewFromRaw (rawTempo : Nat) : Nat :=
  if rawTempo > 127 then 127 else rawTempo

/-- Tempo::get_actual: the real BPM represented by a raw tempo byte. -/
def tempoGetActual (raw : Nat) : Int :=
  (raw : Int) * 2 + 20

/-- Tempo::new: clamps the real BPM (the `assign_tempo` intermediate) into
[20, 274], then converts to the raw byte via `(assign_tempo - 20) / 2`
(i32 division on a non-negative value). -/
def tempoNew (realTempo : Int) : Nat :=
  ((if realTempo > 274 then (274 : Int)
    else if realTempo < 20 then 20
    else realTempo) - 20).toNat / 2

/-! Binary codec.  Each element is one 32-bit word, bits numbered MSB-first
(`MSB0` in the bitfield declarations of `bin_format/bin_encoder.rs`), so a
field occupying bits `hi..lo` sits at shift `32 - 1 - hi` with width
`hi - lo + 1`.  The word is written to the stream as 4 bytes, most
significant byte first, which is exactly how the nom bit parser of
`bin_decoder.rs` consumes it. -/

/-- MeasureInitializerBin layout: id bits 0-1, beats 2-4, beat_type 5-6,
fifths 7-10, tempo 11-17 (shifts 30, 27, 25, 21, 14).  Each bitfield
setter masks its argument to the field width. -/
def MeasureInitializer.word (m : MeasureInitializer) : Nat :=
  0 * 1073741824 + m.beats.toNat % 8 * 134217728 +
    m.beatType.toNat % 4 * 33554432 + m.keySig.toNat % 16 * 2097152 +
    m.tempo % 128 * 16384

/-- MeasureMetaDataBin layout: id bits 0-1, start_end 2-3, ending 4-5,
dal_segno 6-8 (shifts 30, 28, 26, 23). -/
def MeasureMetaData.word (m : MeasureMetaData) : Nat :=
  1 * 1073741824 + m.startEnd.toNat % 4 * 268435456 +
    m.ending.toNat % 4 * 67108864 + m.dalSegno.toNat % 8 * 8388608

/-- NoteDataBin layout: id bits 0-1, note 2-8, phrase_dynamics 9-12,
rhythm_value 13-15, dotted 16, arpeggiate 17, special_note 18-19,
articulation 20-22, trill 23-24, ties 25-26, chord 27, slur 28-29,
voice 30-31. -/
def NoteData.word (n : NoteData) : Nat :=
  2 * 1073741824 + n.noteRest.getNumericValue % 128 * 8388608 +
    n.phraseDynamics.toNat % 16 * 524288 + n.noteType.toNat % 8 * 65536 +
    (if n.dotted then 1 else 0) * 32768 + n.arpeggiate.toNat % 2 * 16384 +
    n.specialNote.toNat % 4 * 4096 + n.articulation.toNat % 8 * 512 +
    n.trill.toNat % 4 * 128 + n.ties.toNat % 4 * 32 + n.chord.toNat % 2 * 16 +
    n.slur.toNat % 4 * 4 + n.voice.toNat % 4

/-- TupletDataBin layout: id bits 0-1, start_stop 2-3, tuplet_number 4-5,
actual_notes 6-9, normal_notes 10-13, dotted 14 (shifts 30, 28, 26, 22,
18, 17).  The 4-bit actual_notes field truncates the discriminant of
`TupletActual.twentyFive` (16) to 0. -/
def TupletData.word (t : TupletData) : Nat :=
  3 * 1073741824 + t.startStop.toNat % 4 * 268435456 +
    t.tupletNumber.toNat % 4 * 67108864 + t.actualNotes.toNat % 16 * 4194304 +
    t.normalNotes.toNat % 16 * 262144 + (if t.dotted then 1 else 0) * 131072

/-- The 32-bit record word of a MusicElement. -/
def MusicElement.word : MusicElement → Nat
  | .measureInit m => m.word
  | .measureMeta m => m.word
  | .noteRest n => n.word
  | .tuplet t => t.word

/-- Serialization of a 32-bit word as 4 bytes, most significant first. -/
def bytesOfWord (w : Nat) : List Nat :=
  [w / 16777216 % 256, w / 65536 % 256, w / 256 % 256, w % 256]

/-- Reassembly of a 32-bit word from 4 bytes, most significant first. -/
def wordOfBytes (b0 b1 b2 b3 : Nat) : Nat :=
  b0 * 16777216 + b1 * 65536 + b2 * 256 + b3

/-- One encoded element record (`MusicEncoder::insert_*`). -/
def encodeElem (e : MusicElement) : List Nat :=
  bytesOfWord e.word

/-- Concatenation of the element records, in order (`ir_to_bin` loop). -/
def encodeElems : List MusicElement → List Nat
  | [] => []
  | e :: es => encodeElem e ++ encodeElems es

/-- Little-endian serialization of the header length field
(`(hdr.length as u32).to_le_bytes()`); the cast truncates mod 2^32. -/
def u32le (n : Nat) : List Nat :=
  [n % 256, n / 256 % 256, n / 65536 % 256, n / 16777216 % 256]

/-- Full stream produced by `ir_to_bin`: `MuBi` magic, little-endian u32
byte length (4 bytes per element), then the records. -/
def encode (es : List MusicElement) : List Nat :=
  [77, 117, 66, 105] ++ u32le (4 * es.length) ++ encodeElems es

/-- Decoder for a MeasureInitializer record (`parse_measure_init`): reads
id(2), beats(3), beat_type(2), fifths(4), tempo(7); the remaining bits are
read and discarded. -/
def decodeMeasureInit (w : Nat) : Option MusicElement := do
  let beats ← Beats.ofNat? (w / 134217728 % 8)
  let beatType ← BeatType.ofNat? (w / 33554432 % 4)
  let keySig ← KeySignature.ofNat? (w / 2097152 % 16)
  let tempo := tempoNewFromRaw (w / 16384 % 128)
  pure (.measureInit ⟨beats, beatType, keySig, tempo⟩)

/-- Decoder for a MeasureMetaData record (`parse_measure_meta`). -/
def decodeMeasureMeta (w : Nat) : Option MusicElement := do
  let startEnd ← MeasureStartEnd.ofNat? (w / 268435456 % 4)
  let ending ← Ending.ofNat? (w / 67108864 % 4)
  let dalSegno ← DalSegno.ofNat? (w / 8388608 % 8)
  pure (.measureMeta ⟨startEnd, ending, dalSegno⟩)

/-- Decoder for a NoteData record (`parse_note_data_rest`); the 7-bit pitch
field goes through `NumericPitchRest::new_from_numeric`, which does not
range-check it. -/
def decodeNoteData (w : Nat) : Option MusicElement := do
  let noteRest := NumericPitchRest.newFromNumeric (w / 8388608 % 128)
  let phraseDynamics ← PhraseDynamics.ofNat? (w / 524288 % 16)
  let rhythmValue ← RhythmType.ofNat? (w / 65536 % 8)
  let dotted := w / 32768 % 2 ≠ 0
  let arp ← Arpeggiate.ofNat? (w / 16384 % 2)
  let specialNote ← SpecialNote.ofNat? (w / 4096 % 4)
  let articulation ← Articulation.ofNat? (w / 512 % 8)
  let trill ← Trill.ofNat? (w / 128 % 4)
  let ties ← NoteConnection.ofNat? (w / 32 % 4)
  let chrd ← Chord.ofNat? (w / 16 % 2)
  let slur ← SlurConnection.ofNat? (w / 4 % 4)
  let voice ← Voice.ofNat? (w % 4)
  pure (.noteRest ⟨noteRest, phraseDynamics, rhythmValue, dotted, arp,
    specialNote, articulation, trill, ties, chrd, slur, voice⟩)

/-- Decoder for a TupletData record (`parse_tuplet_data`): id(2),
start_stop(2), tuplet_number(2), actual(4), normal(4), dotted(1); the 17
remaining bits are read and discarded. -/
def decodeTupletData (w : Nat) : Option MusicElement := do
  let startStop ← TupletStartStop.ofNat? (w / 268435456 % 4)
  let tupletNumber ← TupletNumber.ofNat? (w / 67108864 % 4)
  let actualNotes ← TupletActual.ofNat? (w / 4194304 % 16)
  let normalNotes ← TupletNormal.ofNat? (w / 262144 % 16)
  let dotted := w / 131072 % 2 ≠ 0
  pure (.tuplet ⟨startStop, tupletNumber, actualNotes, normalNotes, dotted⟩)

/-- Dispatch on the 2-bit tag (`music_element` after `parse_id`).  Callers
only pass words below 2^32, for which the quotient is 0..3. -/
def decodeRecord (w : Nat) : Option MusicElement :=
  match w / 1073741824 with
  | 0 => decodeMeasureInit w
  | 1 => decodeMeasureMeta w
  | 2 => decodeNoteData w
  | 3 => decodeTupletData w
  | _ => Option.none

/-- Record stream decoder (`many0(music_element)` under `all_consuming`):
empty input ends the stream, a trailing chunk shorter than 4 bytes is a
truncation failure, and a record whose fields do not validate fails the
whole parse. -/
def decodeElems : List Nat → Option (List MusicElement)
  | [] => some []
  | b0 :: b1 :: b2 :: b3 :: rest => do
    let e ← decodeRecord (wordOfBytes b0 b1 b2 b3)
    let es ← decodeElems rest
    pure (e :: es)
  | _ => Option.none

/-- Little-endian u32 read of the header length field of a stream (bytes 4
to 7); 0 when the stream is shorter than a header. -/
def lenField : List Nat → Nat
  | _ :: _ :: _ :: _ :: l0 :: l1 :: l2 :: l3 :: _ =>
    l0 + l1 * 256 + l2 * 65536 + l3 * 16777216
  | _ => 0

/-- Full stream decoder (`MusicDecoder::parse_data`): checks the `MuBi`
magic, parses every record, and rejects the stream when
`header.length / 4` differs from the decoded element count. -/
def parseData (bytes : List Nat) : Option (List MusicElement) :=
  match bytes with
  | 77 :: 117 :: 66 :: 105 :: l0 :: l1 :: l2 :: l3 :: rest => do
    let es ← decodeElems rest
    let len := l0 + l1 * 256 + l2 * 65536 + l3 * 16777216
    if len / 4 = es.length then some es else none
  | _ => Option.none

/-! Duration arithmetic (`ir/notation.rs`). -/

/-- NoteData::get_duration_numeric, translated literally, including the
whole-rest branch `(divisions * numerator * beats * 10) / (beat_type * 10)
/ denominator` with Nat (u32) truncating division. -/
def NoteData.getDurationNumeric (n : NoteData) (divisions beats beatType : Nat)
    (timeMods : Option TimeModification) : Nat :=
  if n.specialNote ≠ SpecialNote.none then 0
  else
    let numer0 := if n.dotted then 3 else 1
    let denom0 := if n.dotted then 2 else 1
    let numerator := match timeMods with
      | some val => numer0 * val.normalNotes.asU32
      | none => numer0
    let denominator := match timeMods with
      | some val => denom0 * val.actualNotes.asU32
      | none => denom0
    match n.noteType with
    | .semiHemiDemiSemiQuaver => divisions * numerator / 32 / denominator
    | .hemiDemiSemiQuaver => divisions * numerator / 16 / denominator
    | .demiSemiQuaver => divisions * numerator / 8 / denominator
    | .semiQuaver => divisions * numerator / 4 / denominator
    | .quaver => divisions * numerator / 2 / denominator
    | .crochet => divisions * numerator / denominator
    | .minim => divisions * 2 * numerator / denominator
    | .semiBreve =>
      if n.noteRest = NumericPitchRest.rest then
        divisions * numerator * beats * 10 / (beatType * 10) / denominator
      else divisions * 4 * numerator / denominator

/-- The dotted-form test of `from_numeric_duration`:
`(3 * base) / 2 == duration` (u32 truncating division). -/
def isDottedMatch (base duration : Nat) : Bool :=
  3 * base / 2 == duration

/-- Indexing into the `note_types` array of `from_numeric_duration`, with
the source's fallback to the last entry for an out-of-range exponent. -/
def rhythmOfExp : Nat → RhythmType
  | 0 => .semiBreve
  | 1 => .minim
  | 2 => .crochet
  | 3 => .quaver
  | 4 => .semiQuaver
  | 5 => .demiSemiQuaver
  | 6 => .hemiDemiSemiQuaver
  | _ => .semiHemiDemiSemiQuaver

/-- The first while loop of `from_numeric_duration`, with the distance of
the exponent from the last index (7) as a structural fuel: halve the base
while it exceeds the target and the exponent is below the last index,
testing the dotted form after each step.  Returns the final base,
exponent, and whether a dotted match was found. -/
def shrinkAux (numeric : Nat) : Nat → Nat → Nat → Nat × Nat × Bool
  | 0, base, exp => (base, exp, false)
  | fuel + 1, base, exp =>
    if base > numeric then
      let base' := base / 2
      let exp' := exp + 1
      if isDottedMatch base' numeric then (base', exp', true)
      else shrinkAux numeric fuel base' exp'
    else (base, exp, false)

/-- Entry to the first while loop: the condition `exponent < 7` holds
exactly while the fuel `7 - exponent` is positive. -/
def shrinkLoop (numeric base exp : Nat) : Nat × Nat × Bool :=
  shrinkAux numeric (7 - exp) base exp

/-- The second while loop of `from_numeric_duration`, structural in the
exponent: double the base while it is below the target and the exponent is
positive, testing the dotted form after each step. -/
def growLoop (numeric : Nat) : Nat → Nat → Nat × Nat × Bool
  | base, 0 => (base, 0, false)
  | base, exp + 1 =>
    if base < numeric then
      let base' := base * 2
      if isDottedMatch base' numeric then (base', exp, true)
      else growLoop numeric base' exp
    else (base, exp + 1, false)

/-- The `nn` values 2..=16 enumerated by the tuplet search, in order, with
the values unsupported by TupletNormal (5, 7, 10, 11, 13, 14) skipped. -/
def tupletNNs : List Nat := [2, 3, 4, 6, 8, 9, 12, 15, 16]

/-- The `an` values 2..=25 enumerated by the tuplet search, in order, with
the values unsupported by TupletActual (12, 14, 19, 20, 22, 23, 24)
skipped. -/
def tupletANs : List Nat :=
  [2, 3, 4, 5, 6, 7, 8, 9, 10, 11, 13, 15, 16, 17, 18, 21, 25]

/-- The nested tuplet-ratio search of `from_numeric_duration`: for each
`nn`, the first `an` with `base * nn == numeric * an` stops the inner loop;
it yields a time modification only when `an != nn`, otherwise the outer
loop continues. -/
def tupletSearchGo (base numeric : Nat) : List Nat → Option TimeModification
  | [] => Option.none
  | nn :: rest =>
    match tupletANs.find? (fun an => base * nn == numeric * an) with
    | some an =>
      if an ≠ nn then
        match TupletActual.ofU32? an, TupletNormal.ofU32? nn with
        | some a, some n => some ⟨a, n⟩
        | _, _ => Option.none
      else tupletSearchGo base numeric rest
    | none => tupletSearchGo base numeric rest

/-- Entry point of the bounded tuplet-ratio search. -/
def tupletSearch (base numeric : Nat) : Option TimeModification :=
  tupletSearchGo base numeric tupletNNs

/-- NoteData::from_numeric_duration: dotted test at the quarter-note base,
then the two stepping loops, then the bounded tuplet search; every path
returns `some`. -/
def NoteData.fromNumericDuration (numericDuration quarterDivision : Nat) :
    Option (RhythmType × Bool × Option TimeModification) :=
  if isDottedMatch quarterDivision numericDuration then
    some (.crochet, true, none)
  else
    let s := shrinkLoop numericDuration quarterDivision 2
    if s.2.2 then some (rhythmOfExp s.2.1, true, none)
    else
      let g := growLoop numericDuration s.1 s.2.1
      if g.2.2 then some (rhythmOfExp g.2.1, true, none)
      else some (rhythmOfExp g.2.1, false, tupletSearch g.1 numericDuration)

/-- NoteData::new_default_rest. -/
def NoteData.newDefaultRest (noteType : RhythmType) (dotted : Bool)
    (voice : Voice) : NoteData :=
  ⟨.rest, .none, noteType, dotted, .noArpeggiation, .none, .none, .none,
    .none, .noChord, .none, voice⟩

/-- A pitched NoteData (middle C) carrying the given rhythm type and dot,
every other field at its default: the note shape the duration-inverse
property quantifies over. -/
def pitchNoteOf (rt : RhythmType) (d : Bool) : NoteData :=
  ⟨.pitch 60, .none, rt, d, .noArpeggiation, .none, .none, .none, .none,
    .noChord, .none, .one⟩

/-- The index of each rhythm type in the `note_types` array of
`from_numeric_duration`: the inverse of `rhythmOfExp` on 0..7. -/
def expOfRhythm : RhythmType → Nat
  | .semiHemiDemiSemiQuaver => 7
  | .hemiDemiSemiQuaver => 6
  | .demiSemiQuaver => 5
  | .semiQuaver => 4
  | .quaver => 3
  | .crochet => 2
  | .minim => 1
  | .semiBreve => 0

/-- Measurement of a `from_numeric_duration` result: the numeric duration
its rhythm type, dot and time modification produce back through
`get_duration_numeric` on a pitched note at the given divisions (beats and
beat type only affect whole rests), paired with the returned time
modification. -/
def inverseMeasure (dvs : Nat) :
    Option (RhythmType × Bool × Option TimeModification) →
      Option (Nat × Option TimeModification)
  | some (rt, d, tm) =>
      some ((pitchNoteOf rt d).getDurationNumeric dvs 4 4 tm, tm)
  | none => Option.none

/-! MeasureChecker (`ir/measure_checker.rs`). -/

/-- From TupletData to the active time modification: a TupletStart carries
its ratio, anything else clears it. -/
def TupletData.toTimeMod (t : TupletData) : Option TimeModification :=
  match t.startStop with
  | .tupletStart => some ⟨t.actualNotes, t.normalNotes⟩
  | _ => Option.none

/-- Accumulator of the first pass of `remove_incomplete_voices`:
per-voice-index durations and last indices, the active time modification,
and the previous element's voice. -/
structure ScanState where
  durs : Nat → Nat
  lastIdx : Nat → Nat
  timeMod : Option TimeModification
  prevVoice : Nat

/-- Initial accumulator: zeroed arrays, no time modification, previous
voice 0. -/
def scanInit : ScanState :=
  ⟨fun _ => 0, fun _ => 0, none, 0⟩

/-- One step of the first pass of `remove_incomplete_voices` at buffer
index `idx`.  The source computes `idx - 1` in usize; the embedding uses
Nat truncating subtraction, which coincides whenever the first buffer
element is not a note of a voice above voice 0 (otherwise the source
panics on underflow). -/
def scanStep (qdiv : Nat) (beats : Beats) (beatType : BeatType) (idx : Nat)
    (s : ScanState) : MusicElement → ScanState
  | .tuplet t => { s with timeMod := t.toTimeMod }
  | .noteRest n =>
    let durs' :=
      if n.chord = Chord.noChord ∧ n.specialNote = SpecialNote.none then
        fun k => if k = n.voice.toNat then
          s.durs k + n.getDurationNumeric qdiv beats.asU32 beatType.asU32 s.timeMod
        else s.durs k
      else s.durs
    let lastIdx' :=
      if n.voice.toNat > s.prevVoice then
        fun k => if k = s.prevVoice then idx - 1 else s.lastIdx k
      else s.lastIdx
    { durs := durs', lastIdx := lastIdx', timeMod := s.timeMod,
      prevVoice := n.voice.toNat }
  | _ => s

/-- The first pass of `remove_incomplete_voices` as a fold with an explicit
running index. -/
def scanGo (qdiv : Nat) (beats : Beats) (beatType : BeatType) :
    Nat → ScanState → List MusicElement → ScanState
  | _, s, [] => s
  | idx, s, e :: rest =>
    scanGo qdiv beats beatType (idx + 1) (scanStep qdiv beats beatType idx s e) rest

/-- FromPrimitive conversion used for the synthesized rest's voice; the
source unwraps, and the caller only passes indices below 4. -/
def voiceOfIdx : Nat → Voice
  | 0 => .one
  | 1 => .two
  | 2 => .three
  | _ => .four

/-- The body of the second loop of `remove_incomplete_voices` for one voice
index: when the voice's tallied duration is nonzero and below voice 0's, a
rest for the discrepancy is synthesized via `from_numeric_duration`
(dropping any time modification) and inserted at the voice's recorded
index. -/
def fixVoice (qdiv : Nat) (s : ScanState) (measure : List MusicElement)
    (voiceIdx : Nat) : List MusicElement :=
  if s.durs voiceIdx ≠ 0 ∧ s.durs voiceIdx < s.durs 0 then
    match NoteData.fromNumericDuration (s.durs 0 - s.durs voiceIdx) qdiv with
    | some (duration, isDotted, _) =>
      measure.insertIdx (s.lastIdx voiceIdx)
        (.noteRest (NoteData.newDefaultRest duration isDotted (voiceOfIdx voiceIdx)))
    | none => measure
  else measure

/-- MeasureChecker::remove_incomplete_voices: tally the per-voice durations
and last indices in one pass, then walk the voice indices 0..numVoices
inserting corrective rests.  The source panics when the voice set exceeds
4; the embedding leaves the buffer untouched in that case. -/
def removeIncompleteVoices (qdiv : Nat) (beats : Beats) (beatType : BeatType)
    (numVoices : Nat) (measure : List MusicElement) : List MusicElement :=
  if numVoices > 4 then measure
  else
    (List.range numVoices).foldl
      (fixVoice qdiv (scanGo qdiv beats beatType 0 scanInit measure)) measure

/-- Total duration of one voice over a measure buffer, summing non-chord,
non-special NoteData durations under the time modification active at each
point — the metric of the voice-equalization property. -/
def voiceDurGo (qdiv : Nat) (beats : Beats) (beatType : BeatType) (v : Voice) :
    Option TimeModification → List MusicElement → Nat
  | _, [] => 0
  | _, .tuplet t :: rest => voiceDurGo qdiv beats beatType v t.toTimeMod rest
  | tm, .noteRest n :: rest =>
    (if n.voice = v ∧ n.chord = Chord.noChord ∧ n.specialNote = SpecialNote.none then
      n.getDurationNumeric qdiv beats.asU32 beatType.asU32 tm
    else 0) + voiceDurGo qdiv beats beatType v tm rest
  | tm, _ :: rest => voiceDurGo qdiv beats beatType v tm rest

/-- Total duration of a voice, starting with no active time modification. -/
def voiceDur (qdiv : Nat) (beats : Beats) (beatType : BeatType) (v : Voice)
    (measure : List MusicElement) : Nat :=
  voiceDurGo qdiv beats beatType v none measure

/-- Check that a measure buffer contains no Tuplet elements. -/
def noTuplets (measure : List MusicElement) : Bool :=
  measure.all fun e => match e with
    | .tuplet _ => false
    | _ => true

/-- Check the first-element condition under which the source's `idx - 1`
cannot underflow: the buffer does not begin with a note of a voice above
voice 0. -/
def firstElemOk : List MusicElement → Bool
  | .noteRest n :: _ => n.voice = Voice.one
  | _ => true

/-! MusicalPart (`ir/musical_part.rs`). -/

/-- MusicalPart::insert_new_voice over the part's BTreeSet of voice ids:
insert the id; if the set then exceeds 4 distinct ids, remove it again and
fail (`Error::OutofBounds`, the spec's TooManyVoices); otherwise return the
id's position in the set's ascending iteration order. -/
def insertNewVoice (voices : Finset ℕ) (voiceNum : ℕ) :
    Option (Finset ℕ × ℕ) :=
  let inserted := insert voiceNum voices
  if inserted.card > 4 then none
  else some (inserted, (inserted.filter (· < voiceNum)).card)

/-- Range check the spec imposes on a note's pitch field: a rest, or a
pitch in 1..97. -/
def NumericPitchRest.inRange : NumericPitchRest → Bool
  | .rest => true
  | .pitch v => 1 ≤ v ∧ v ≤ 97

/-- Range check on a MusicElement's numeric fields: raw tempo at most 127
and pitch in range; enumerated fields are in range by construction, except
that `TupletActual.twentyFive` (discriminant 16) does not fit the 4-bit
actual_notes field and must be excluded for the record to survive
encoding. -/
def MusicElement.validB : MusicElement → Bool
  | .measureInit m => m.tempo ≤ 127
  | .noteRest n => n.noteRest.inRange
  | .tuplet t => t.actualNotes ≠ TupletActual.twentyFive
  | _ => true

/-! Enum discriminant round-trips and bounds. -/

theorem beats_ofNat_toNat (x : Beats) : Beats.ofNat? x.toNat = some x := by
  cases x <;> rfl

theorem beatType_ofNat_toNat (x : BeatType) : BeatType.ofNat? x.toNat = some x := by
  cases x <;> rfl

theorem keySignature_ofNat_toNat (x : KeySignature) :
    KeySignature.ofNat? x.toNat = some x := by
  cases x <;> rfl

theorem measureStartEnd_ofNat_toNat (x : MeasureStartEnd) :
    MeasureStartEnd.ofNat? x.toNat = some x := by
  cases x <;> rfl

theorem ending_ofNat_toNat (x : Ending) : Ending.ofNat? x.toNat = some x := by
  cases x <;> rfl

theorem dalSegno_ofNat_toNat (x : DalSegno) : DalSegno.ofNat? x.toNat = some x := by
  cases x <;> rfl

theorem phraseDynamics_ofNat_toNat (x : PhraseDynamics) :
    PhraseDynamics.ofNat? x.toNat = some x := by
  cases x <;> rfl

theorem rhythmType_ofNat_toNat (x : RhythmType) :
    RhythmType.ofNat? x.toNat = some x := by
  cases x <;> rfl

theorem arpeggiate_ofNat_toNat (x : Arpeggiate) :
    Arpeggiate.ofNat? x.toNat = some x := by
  cases x <;> rfl

theorem specialNote_ofNat_toNat (x : SpecialNote) :
    SpecialNote.ofNat? x.toNat = some x := by
  cases x <;> rfl

theorem articulation_ofNat_toNat (x : Articulation) :
    Articulation.ofNat? x.toNat = some x := by
  cases x <;> rfl

theorem trill_ofNat_toNat (x : Trill) : Trill.ofNat? x.toNat = some x := by
  cases x <;> rfl

theorem noteConnection_ofNat_toNat (x : NoteConnection) :
    NoteConnection.ofNat? x.toNat = some x := by
  cases x <;> rfl

theorem chord_ofNat_toNat (x : Chord) : Chord.ofNat? x.toNat = some x := by
  cases x <;> rfl

theorem slurConnection_ofNat_toNat (x : SlurConnection) :
    SlurConnection.ofNat? x.toNat = some x := by
  cases x <;> rfl

theorem voice_ofNat_toNat (x : Voice) : Voice.ofNat? x.toNat = some x := by
  cases x <;> rfl

theorem tupletStartStop_ofNat_toNat (x : TupletStartStop) :
    TupletStartStop.ofNat? x.toNat = some x := by
  cases x <;> rfl

theorem tupletNumber_ofNat_toNat (x : TupletNumber) :
    TupletNumber.ofNat? x.toNat = some x := by
  cases x <;> rfl

theorem tupletActual_ofNat_toNat (x : TupletActual) :
    TupletActual.ofNat? x.toNat = some x := by
  cases x <;> rfl

theorem tupletNormal_ofNat_toNat (x : TupletNormal) :
    TupletNormal.ofNat? x.toNat = some x := by
  cases x <;> rfl

theorem tempoNewFromRaw_of_le {raw : Nat} (h : raw ≤ 127) :
    tempoNewFromRaw raw = raw := by
  unfold tempoNewFromRaw
  rw [if_neg (by omega)]

/-- Reassembling the four bytes of a 32-bit word gives the word back. -/
theorem wordOfBytes_bytesOfWord {w : Nat} (h : w < 4294967296) :
    wordOfBytes (w / 16777216 % 256) (w / 65536 % 256) (w / 256 % 256) (w % 256) = w := by
  unfold wordOfBytes
  omega

/-- Decoding the encoded record of a valid MeasureInitializer returns it. -/
theorem decodeRecord_measureInit (m : MeasureInitializer) (ht : m.tempo ≤ 127) :
    decodeRecord (MeasureInitializer.word m) = some (.measureInit m) := by
  have hb : m.beats.toNat ≤ 6 := by cases m.beats <;> decide
  have hbt : m.beatType.toNat ≤ 3 := by cases m.beatType <;> decide
  have hk : m.keySig.toNat ≤ 11 := by cases m.keySig <;> decide
  have h0 : MeasureInitializer.word m / 1073741824 = 0 := by
    unfold MeasureInitializer.word; omega
  have h1 : MeasureInitializer.word m / 134217728 % 8 = m.beats.toNat := by
    unfold MeasureInitializer.word; omega
  have h2 : MeasureInitializer.word m / 33554432 % 4 = m.beatType.toNat := by
    unfold MeasureInitializer.word; omega
  have h3 : MeasureInitializer.word m / 2097152 % 16 = m.keySig.toNat := by
    unfold MeasureInitializer.word; omega
  have h4 : MeasureInitializer.word m / 16384 % 128 = m.tempo := by
    unfold MeasureInitializer.word; omega
  simp only [decodeRecord, h0, decodeMeasureInit, h1, h2, h3, h4,
    beats_ofNat_toNat, beatType_ofNat_toNat, keySignature_ofNat_toNat,
    tempoNewFromRaw_of_le ht, Option.bind_eq_bind, Option.some_bind]
  rfl

/-- Decoding the encoded record of a MeasureMetaData returns it. -/
theorem decodeRecord_measureMeta (m : MeasureMetaData) :
    decodeRecord (MeasureMetaData.word m) = some (.measureMeta m) := by
  have hs : m.startEnd.toNat ≤ 3 := by cases m.startEnd <;> decide
  have he : m.ending.toNat ≤ 3 := by cases m.ending <;> decide
  have hd : m.dalSegno.toNat ≤ 7 := by cases m.dalSegno <;> decide
  have h0 : MeasureMetaData.word m / 1073741824 = 1 := by
    unfold MeasureMetaData.word; omega
  have h1 : MeasureMetaData.word m / 268435456 % 4 = m.startEnd.toNat := by
    unfold MeasureMetaData.word; omega
  have h2 : MeasureMetaData.word m / 67108864 % 4 = m.ending.toNat := by
    unfold MeasureMetaData.word; omega
  have h3 : MeasureMetaData.word m / 8388608 % 8 = m.dalSegno.toNat := by
    unfold MeasureMetaData.word; omega
  simp only [decodeRecord, h0, decodeMeasureMeta, h1, h2, h3,
    measureStartEnd_ofNat_toNat, ending_ofNat_toNat, dalSegno_ofNat_toNat,
    Option.bind_eq_bind, Option.some_bind]
  rfl

/-- The pitch round-trip: re-parsing the numeric value of an in-range
NumericPitchRest gives it back (a nonzero pitch value is preserved). -/
theorem newFromNumeric_getNumericValue (p : NumericPitchRest)
    (h : p.inRange = true) :
    NumericPitchRest.newFromNumeric p.getNumericValue = p := by
  cases p with
  | rest => rfl
  | pitch v =>
    simp only [NumericPitchRest.inRange, decide_eq_true_eq] at h
    simp [NumericPitchRest.newFromNumeric, NumericPitchRest.getNumericValue]
    omega

/-- Decoding the encoded record of a NoteData with an in-range pitch
returns it. -/
theorem decodeRecord_noteData (n : NoteData) (hp : n.noteRest.inRange = true) :
    decodeRecord (NoteData.word n) = some (.noteRest n) := by
  have hv : n.noteRest.getNumericValue ≤ 97 := by
    cases h : n.noteRest with
    | rest => simp [NumericPitchRest.getNumericValue]
    | pitch v =>
      rw [h] at hp
      simp only [NumericPitchRest.inRange, decide_eq_true_eq] at hp
      simpa [NumericPitchRest.getNumericValue] using hp.2
  have h1 : n.phraseDynamics.toNat ≤ 14 := by cases n.phraseDynamics <;> decide
  have h2 : n.noteType.toNat ≤ 7 := by cases n.noteType <;> decide
  have h3 : (if n.dotted then 1 else 0) ≤ 1 := by cases n.dotted <;> decide
  have h4 : n.arpeggiate.toNat ≤ 1 := by cases n.arpeggiate <;> decide
  have h5 : n.specialNote.toNat ≤ 3 := by cases n.specialNote <;> decide
  have h6 : n.articulation.toNat ≤ 7 := by cases n.articulation <;> decide
  have h7 : n.trill.toNat ≤ 2 := by cases n.trill <;> decide
  have h8 : n.ties.toNat ≤ 2 := by cases n.ties <;> decide
  have h9 : n.chord.toNat ≤ 1 := by cases n.chord <;> decide
  have h10 : n.slur.toNat ≤ 2 := by cases n.slur <;> decide
  have h11 : n.voice.toNat ≤ 3 := by cases n.voice <;> decide
  have e0 : NoteData.word n / 1073741824 = 2 := by unfold NoteData.word; omega
  have e1 : NoteData.word n / 8388608 % 128 = n.noteRest.getNumericValue := by
    unfold NoteData.word; omega
  have e2 : NoteData.word n / 524288 % 16 = n.phraseDynamics.toNat := by
    unfold NoteData.word; omega
  have e3 : NoteData.word n / 65536 % 8 = n.noteType.toNat := by
    unfold NoteData.word; omega
  have e4 : NoteData.word n / 32768 % 2 = (if n.dotted then 1 else 0) := by
    unfold NoteData.word; omega
  have e5 : NoteData.word n / 16384 % 2 = n.arpeggiate.toNat := by
    unfold NoteData.word; omega
  have e6 : NoteData.word n / 4096 % 4 = n.specialNote.toNat := by
    unfold NoteData.word; omega
  have e7 : NoteData.word n / 512 % 8 = n.articulation.toNat := by
    unfold NoteData.word; omega
  have e8 : NoteData.word n / 128 % 4 = n.trill.toNat := by
    unfold NoteData.word; omega
  have e9 : NoteData.word n / 32 % 4 = n.ties.toNat := by
    unfold NoteData.word; omega
  have e10 : NoteData.word n / 16 % 2 = n.chord.toNat := by
    unfold NoteData.word; omega
  have e11 : NoteData.word n / 4 % 4 = n.slur.toNat := by
    unfold NoteData.word; omega
  have e12 : NoteData.word n % 4 = n.voice.toNat := by
    unfold NoteData.word; omega
  have hdot : ((if n.dotted then 1 else 0) ≠ 0) = (n.dotted = true) := by
    cases n.dotted <;> simp
  simp only [decodeRecord, e0, decodeNoteData, e1, e2, e3, e4, e5, e6, e7,
    e8, e9, e10, e11, e12, newFromNumeric_getNumericValue n.noteRest hp,
    phraseDynamics_ofNat_toNat, rhythmType_ofNat_toNat,
    arpeggiate_ofNat_toNat, specialNote_ofNat_toNat,
    articulation_ofNat_toNat, trill_ofNat_toNat,
    noteConnection_ofNat_toNat, chord_ofNat_toNat,
    slurConnection_ofNat_toNat, voice_ofNat_toNat,
    Option.bind_eq_bind, Option.some_bind, hdot]
  cases hd : n.dotted <;> simp [hd] <;> rw [← hd]

/-- Decoding the encoded record of a TupletData whose actual_notes fits
the 4-bit field returns it. -/
theorem decodeRecord_tuplet (t : TupletData)
    (ha : t.actualNotes ≠ TupletActual.twentyFive) :
    decodeRecord (TupletData.word t) = some (.tuplet t) := by
  have h1 : t.startStop.toNat ≤ 2 := by cases t.startStop <;> decide
  have h2 : t.tupletNumber.toNat ≤ 3 := by cases t.tupletNumber <;> decide
  have h3 : t.actualNotes.toNat ≤ 15 := by
    cases h : t.actualNotes <;> first | decide | exact absurd h ha
  have h4 : t.normalNotes.toNat ≤ 8 := by cases t.normalNotes <;> decide
  have h5 : (if t.dotted then 1 else 0) ≤ 1 := by cases t.dotted <;> decide
  have e0 : TupletData.word t / 1073741824 = 3 := by unfold TupletData.word; omega
  have e1 : TupletData.word t / 268435456 % 4 = t.startStop.toNat := by
    unfold TupletData.word; omega
  have e2 : TupletData.word t / 67108864 % 4 = t.tupletNumber.toNat := by
    unfold TupletData.word; omega
  have e3 : TupletData.word t / 4194304 % 16 = t.actualNotes.toNat := by
    unfold TupletData.word; omega
  have e4 : TupletData.word t / 262144 % 16 = t.normalNotes.toNat := by
    unfold TupletData.word; omega
  have e5 : TupletData.word t / 131072 % 2 = (if t.dotted then 1 else 0) := by
    unfold TupletData.word; omega
  have hdot : ((if t.dotted then 1 else 0) ≠ 0) = (t.dotted = true) := by
    cases t.dotted <;> simp
  simp only [decodeRecord, e0, decodeTupletData, e1, e2, e3, e4, e5,
    tupletStartStop_ofNat_toNat, tupletNumber_ofNat_toNat,
    tupletActual_ofNat_toNat, tupletNormal_ofNat_toNat,
    Option.bind_eq_bind, Option.some_bind, hdot]
  cases hd : t.dotted <;> simp [hd] <;> rw [← hd]

/-- Record words fit in 32 bits for valid elements. -/
theorem word_lt (e : MusicElement) (hv : e.validB = true) :
    e.word < 4294967296 := by
  cases e with
  | measureInit m =>
    have ht : m.tempo ≤ 127 := by
      simpa [MusicElement.validB, decide_eq_true_eq] using hv
    have hb : m.beats.toNat ≤ 6 := by cases m.beats <;> decide
    have hbt : m.beatType.toNat ≤ 3 := by cases m.beatType <;> decide
    have hk : m.keySig.toNat ≤ 11 := by cases m.keySig <;> decide
    simp only [MusicElement.word]
    unfold MeasureInitializer.word
    omega
  | measureMeta m =>
    have hs : m.startEnd.toNat ≤ 3 := by cases m.startEnd <;> decide
    have he : m.ending.toNat ≤ 3 := by cases m.ending <;> decide
    have hd : m.dalSegno.toNat ≤ 7 := by cases m.dalSegno <;> decide
    simp only [MusicElement.word]
    unfold MeasureMetaData.word
    omega
  | noteRest n =>
    have hvp : n.noteRest.getNumericValue ≤ 97 := by
      cases h : n.noteRest with
      | rest => simp [NumericPitchRest.getNumericValue]
      | pitch v =>
        simp only [MusicElement.validB, h, NumericPitchRest.inRange,
          decide_eq_true_eq] at hv
        simpa [NumericPitchRest.getNumericValue] using hv.2
    have h1 : n.phraseDynamics.toNat ≤ 14 := by cases n.phraseDynamics <;> decide
    have h2 : n.noteType.toNat ≤ 7 := by cases n.noteType <;> decide
    have h3 : (if n.dotted then 1 else 0) ≤ 1 := by cases n.dotted <;> decide
    have h4 : n.arpeggiate.toNat ≤ 1 := by cases n.arpeggiate <;> decide
    have h5 : n.specialNote.toNat ≤ 3 := by cases n.specialNote <;> decide
    have h6 : n.articulation.toNat ≤ 7 := by cases n.articulation <;> decide
    have h7 : n.trill.toNat ≤ 2 := by cases n.trill <;> decide
    have h8 : n.ties.toNat ≤ 2 := by cases n.ties <;> decide
    have h9 : n.chord.toNat ≤ 1 := by cases n.chord <;> decide
    have h10 : n.slur.toNat ≤ 2 := by cases n.slur <;> decide
    have h11 : n.voice.toNat ≤ 3 := by cases n.voice <;> decide
    simp only [MusicElement.word]
    unfold NoteData.word
    omega
  | tuplet t =>
    have h1 : t.startStop.toNat ≤ 2 := by cases t.startStop <;> decide
    have h2 : t.tupletNumber.toNat ≤ 3 := by cases t.tupletNumber <;> decide
    have h4 : t.normalNotes.toNat ≤ 8 := by cases t.normalNotes <;> decide
    have h5 : (if t.dotted then 1 else 0) ≤ 1 := by cases t.dotted <;> decide
    simp only [MusicElement.word]
    unfold TupletData.word
    omega

/-- Decoding the encoded record of any valid element returns it. -/
theorem decodeRecord_word (e : MusicElement) (hv : e.validB = true) :
    decodeRecord e.word = some e := by
  cases e with
  | measureInit m =>
    exact decodeRecord_measureInit m
      (by simpa [MusicElement.validB, decide_eq_true_eq] using hv)
  | measureMeta m => exact decodeRecord_measureMeta m
  | noteRest n =>
    exact decodeRecord_noteData n (by simpa [MusicElement.validB] using hv)
  | tuplet t =>
    exact decodeRecord_tuplet t
      (by simpa [MusicElement.validB, decide_eq_true_eq] using hv)

/-- Decoding the concatenated records of a valid element sequence returns
the sequence. -/
theorem decodeElems_encodeElems (es : List MusicElement)
    (hv : es.all MusicElement.validB = true) :
    decodeElems (encodeElems es) = some es := by
  induction es with
  | nil => rfl
  | cons e rest ih =>
    rw [List.all_cons, Bool.and_eq_true] at hv
    have hlt := word_lt e hv.1
    show decodeElems (encodeElem e ++ encodeElems rest) = _
    unfold encodeElem bytesOfWord
    simp only [List.cons_append, List.nil_append, List.append_eq,
      decodeElems, wordOfBytes_bytesOfWord hlt, decodeRecord_word e hv.1,
      ih hv.2, Option.bind_eq_bind, Option.some_bind]
    rfl

/-- Reassembling the little-endian length bytes recovers the length modulo
2^32. -/
theorem lenField_u32le (n : Nat) :
    n % 256 + n / 256 % 256 * 256 + n / 65536 % 256 * 65536 +
      n / 16777216 % 256 * 16777216 = n % 4294967296 := by
  omega

/-- Round trip through the full stream codec: encoding a valid element
sequence whose record bytes fit the u32 length field and decoding it
returns the sequence. -/
theorem parseData_encode (es : List MusicElement)
    (hv : es.all MusicElement.validB = true)
    (hlen : 4 * es.length < 4294967296) :
    parseData (encode es) = some es := by
  show parseData
    (77 :: 117 :: 66 :: 105 :: (u32le (4 * es.length) ++ encodeElems es)) = _
  unfold u32le
  simp only [List.cons_append, List.nil_append, parseData,
    decodeElems_encodeElems es hv, Option.bind_eq_bind, Option.some_bind]
  rw [lenField_u32le, Nat.mod_eq_of_lt hlen]
  simp [Nat.mul_div_cancel_left es.length (by omega : 0 < 4)]

/-- Decoding a tuplet record ignores its 17 reserved low bits. -/
theorem decodeRecord_tuplet_reserved (t : TupletData)
    (ha : t.actualNotes ≠ TupletActual.twentyFive) (r : Nat) (hr : r < 131072) :
    decodeRecord (TupletData.word t + r) = some (.tuplet t) := by
  have h1 : t.startStop.toNat ≤ 2 := by cases t.startStop <;> decide
  have h2 : t.tupletNumber.toNat ≤ 3 := by cases t.tupletNumber <;> decide
  have h3 : t.actualNotes.toNat ≤ 15 := by
    cases h : t.actualNotes <;> first | decide | exact absurd h ha
  have h4 : t.normalNotes.toNat ≤ 8 := by cases t.normalNotes <;> decide
  have h5 : (if t.dotted then 1 else 0) ≤ 1 := by cases t.dotted <;> decide
  have e0 : (TupletData.word t + r) / 1073741824 = 3 := by
    unfold TupletData.word; omega
  have e1 : (TupletData.word t + r) / 268435456 % 4 = t.startStop.toNat := by
    unfold TupletData.word; omega
  have e2 : (TupletData.word t + r) / 67108864 % 4 = t.tupletNumber.toNat := by
    unfold TupletData.word; omega
  have e3 : (TupletData.word t + r) / 4194304 % 16 = t.actualNotes.toNat := by
    unfold TupletData.word; omega
  have e4 : (TupletData.word t + r) / 262144 % 16 = t.normalNotes.toNat := by
    unfold TupletData.word; omega
  have e5 : (TupletData.word t + r) / 131072 % 2 = (if t.dotted then 1 else 0) := by
    unfold TupletData.word; omega
  have hdot : ((if t.dotted then 1 else 0) ≠ 0) = (t.dotted = true) := by
    cases t.dotted <;> simp
  simp only [decodeRecord, e0, decodeTupletData, e1, e2, e3, e4, e5,
    tupletStartStop_ofNat_toNat, tupletNumber_ofNat_toNat,
    tupletActual_ofNat_toNat, tupletNormal_ofNat_toNat,
    Option.bind_eq_bind, Option.some_bind, hdot]
  cases hd : t.dotted <;> simp [hd] <;> rw [← hd]

/-- Tuplet word layout as the spec's sentence states it, for comparison:
id(2), start_stop(2), tuplet_number(3), actual_notes(4), normal_notes(4),
dotted(1), reserved(16), MSB-first (shifts 30, 28, 25, 21, 17, 16). -/
def tupletWordClaim (t : TupletData) : Nat :=
  3 * 1073741824 + t.startStop.toNat * 268435456 +
    t.tupletNumber.toNat * 33554432 + t.actualNotes.toNat * 2097152 +
    t.normalNotes.toNat * 131072 + (if t.dotted then 1 else 0) * 65536

/-- C6 counterexample: the encoder does not use the claimed layout — for a
dotted 2:1 tuplet-start record the word written by the source's bit layout
differs from the word the claim's layout produces (tuplet_number occupies
2 bits, not 3, so every later field sits one bit higher than claimed). -/
theorem c6_counterexample :
    TupletData.word ⟨.tupletStart, .one, .two, .one, true⟩ ≠
      tupletWordClaim ⟨.tupletStart, .one, .two, .one, true⟩ := by
  decide

/-- C6 (amended): every encoded Tuplet record lays out its 32-bit word,
MSB-first, as id(2, value 3) · start_stop(2) · tuplet_number(2) ·
actual_notes(4) · normal_notes(4) · dotted(1) · reserved(17), and the
decoder reads exactly this layout, ignoring the 17 reserved bits —
provided actual_notes is not TwentyFive, whose discriminant 16 overflows
the 4-bit field. -/
theorem c6_tuplet_layout (t : TupletData)
    (ha : t.actualNotes ≠ TupletActual.twentyFive) (r : Nat) (hr : r < 131072) :
    TupletData.word t =
      3 * 1073741824 + t.startStop.toNat * 268435456 +
        t.tupletNumber.toNat * 67108864 + t.actualNotes.toNat * 4194304 +
        t.normalNotes.toNat * 262144 + (if t.dotted then 1 else 0) * 131072 ∧
    decodeRecord (TupletData.word t + r) = some (.tuplet t) := by
  constructor
  · have h1 : t.startStop.toNat ≤ 2 := by cases t.startStop <;> decide
    have h2 : t.tupletNumber.toNat ≤ 3 := by cases t.tupletNumber <;> decide
    have h3 : t.actualNotes.toNat ≤ 15 := by
      cases h : t.actualNotes <;> first | decide | exact absurd h ha
    have h4 : t.normalNotes.toNat ≤ 8 := by cases t.normalNotes <;> decide
    unfold TupletData.word
    omega
  · exact decodeRecord_tuplet_reserved t ha r hr

/-- C6 witness: the amended layout theorem at a concrete record and
nonzero reserved bits. -/
theorem c6_tuplet_layout_witness :
    TupletData.word ⟨.tupletStart, .one, .three, .two, false⟩ =
      3 * 1073741824 + 1 * 268435456 + 0 * 67108864 + 1 * 4194304 +
        1 * 262144 + 0 * 131072 ∧
    decodeRecord (TupletData.word ⟨.tupletStart, .one, .three, .two, false⟩ + 5) =
      some (.tuplet ⟨.tupletStart, .one, .three, .two, false⟩) :=
  c6_tuplet_layout ⟨.tupletStart, .one, .three, .two, false⟩ (by decide) 5 (by decide)

/-- C1 counterexample: a tuplet element all of whose fields are legal enum
variants fails the encode-then-decode round trip, because the discriminant
of `TupletActual.twentyFive` (16) is silently truncated by the 4-bit
actual_notes field and decodes as `TupletActual.two`. -/
theorem c1_counterexample :
    parseData (encode [.tuplet ⟨.tupletStart, .one, .twentyFive, .two, false⟩]) =
      some [.tuplet ⟨.tupletStart, .one, .two, .two, false⟩] ∧
    (MusicElement.tuplet ⟨.tupletStart, .one, .twentyFive, .two, false⟩) ≠
      (MusicElement.tuplet ⟨.tupletStart, .one, .two, .two, false⟩) := by
  constructor
  · decide
  · decide

/-- C1 (amended): for every element sequence whose numeric fields are in
range (tempo raw at most 127, pitch 0..97), whose tuplet records avoid the
unencodable `TupletActual.twentyFive`, and whose record bytes fit the u32
length field, encode-then-decode returns the original sequence; and on
such encoder-produced streams decode-then-encode reproduces the bytes.
An accepted stream outside the encoder's image (nonzero reserved bits, or
a length field that is not an exact multiple of 4) decodes but does not
re-encode to itself. -/
theorem c1_roundtrip (es : List MusicElement)
    (hv : es.all MusicElement.validB = true)
    (hlen : 4 * es.length < 4294967296) :
    parseData (encode es) = some es ∧
      (parseData (encode es)).map encode = some (encode es) := by
  have h := parseData_encode es hv hlen
  exact ⟨h, by rw [h]; rfl⟩

/-- C1 witness: the round trip at a concrete three-element sequence. -/
theorem c1_roundtrip_witness :
    parseData (encode
      [.measureInit ⟨.four, .four, .cMajorAminor, 50⟩,
       .measureMeta ⟨.measureStart, .none, .none⟩,
       .noteRest ⟨.pitch 65, .forte, .semiBreve, true, .noArpeggiation,
         .none, .strongAccent, .none, .none, .noChord, .none, .two⟩]) =
      some
      [.measureInit ⟨.four, .four, .cMajorAminor, 50⟩,
       .measureMeta ⟨.measureStart, .none, .none⟩,
       .noteRest ⟨.pitch 65, .forte, .semiBreve, true, .noArpeggiation,
         .none, .strongAccent, .none, .none, .noChord, .none, .two⟩] :=
  (c1_roundtrip _ (by decide) (by decide)).1

/-- C8 helper: an accepted stream satisfies `length / 4 = element count`. -/
theorem parseData_lenField (bytes : List Nat) (es : List MusicElement)
    (h : parseData bytes = some es) : lenField bytes / 4 = es.length := by
  unfold parseData at h
  split at h
  case h_2 => exact absurd h (by simp)
  case h_1 _ l0 l1 l2 l3 rest =>
    simp only [Option.bind_eq_bind] at h
    cases hd : decodeElems rest with
    | none => rw [hd] at h; exact absurd h (by simp)
    | some es' =>
      rw [hd] at h
      simp only [Option.some_bind] at h
      split at h
      case isTrue hlen =>
        simp only [Option.some.injEq] at h
        subst h
        simpa [lenField] using hlen
      case isFalse => exact absurd h (by simp)

/-- C8 helper: the encoder writes a length field of exactly 4 bytes per
element (when it fits the u32 field). -/
theorem lenField_encode (es : List MusicElement)
    (h : 4 * es.length < 4294967296) :
    lenField (encode es) = 4 * es.length := by
  show lenField
    (77 :: 117 :: 66 :: 105 :: (u32le (4 * es.length) ++ encodeElems es)) = _
  unfold u32le
  simp only [List.cons_append, List.nil_append, lenField]
  omega

/-- C8 counterexample: a stream whose length field is 5 (not a multiple of
4) is accepted with one decoded element, because the decoder only checks
`length / 4` against the element count; so an accepted stream need not
satisfy `length = 4 * count`. -/
theorem c8_counterexample :
    parseData [77, 117, 66, 105, 5, 0, 0, 0, 64, 0, 0, 0] =
      some [.measureMeta ⟨.measureStart, .none, .none⟩] ∧
    lenField [77, 117, 66, 105, 5, 0, 0, 0, 64, 0, 0, 0] ≠ 4 * 1 := by
  constructor
  · decide
  · decide

/-- C8 (amended): for every accepted byte stream, the header's
little-endian u32 length field divided by 4 equals the decoded element
count (the field itself may exceed 4 times the count by up to 3); a stream
whose length field divided by 4 differs from the element count is
rejected; and encode always writes a length field of exactly 4 times the
element count when that fits a u32. -/
theorem c8_header_length :
    (∀ (bytes : List Nat) (es : List MusicElement),
      parseData bytes = some es → lenField bytes / 4 = es.length) ∧
    (∀ es : List MusicElement, 4 * es.length < 4294967296 →
      lenField (encode es) = 4 * es.length) :=
  ⟨parseData_lenField, lenField_encode⟩

/-- C8 witness: both conjuncts at concrete inputs. -/
theorem c8_header_length_witness :
    lenField [77, 117, 66, 105, 4, 0, 0, 0, 64, 0, 0, 0] / 4 =
      [MusicElement.measureMeta ⟨.measureStart, .none, .none⟩].length ∧
    lenField (encode [.measureMeta ⟨.measureStart, .none, .none⟩]) = 4 * 1 :=
  ⟨c8_header_length.1 _ _ (by decide),
   c8_header_length.2 [.measureMeta ⟨.measureStart, .none, .none⟩] (by decide)⟩

theorem phraseDynamics_isSome_ofNat {n : Nat} (h : n ≤ 15) :
    (PhraseDynamics.ofNat? n).isSome = true ↔ n ≤ 14 := by
  interval_cases n <;> decide

theorem trill_isSome_ofNat {n : Nat} (h : n ≤ 3) :
    (Trill.ofNat? n).isSome = true ↔ n ≤ 2 := by
  interval_cases n <;> decide

theorem noteConnection_isSome_ofNat {n : Nat} (h : n ≤ 3) :
    (NoteConnection.ofNat? n).isSome = true ↔ n ≤ 2 := by
  interval_cases n <;> decide

theorem slurConnection_isSome_ofNat {n : Nat} (h : n ≤ 3) :
    (SlurConnection.ofNat? n).isSome = true ↔ n ≤ 2 := by
  interval_cases n <;> decide

theorem rhythmType_ofNat_isSome {n : Nat} (h : n ≤ 7) :
    ∃ x, RhythmType.ofNat? n = some x := by
  interval_cases n <;> exact ⟨_, rfl⟩

theorem arpeggiate_ofNat_isSome {n : Nat} (h : n ≤ 1) :
    ∃ x, Arpeggiate.ofNat? n = some x := by
  interval_cases n <;> exact ⟨_, rfl⟩

theorem specialNote_ofNat_isSome {n : Nat} (h : n ≤ 3) :
    ∃ x, SpecialNote.ofNat? n = some x := by
  interval_cases n <;> exact ⟨_, rfl⟩

theorem articulation_ofNat_isSome {n : Nat} (h : n ≤ 7) :
    ∃ x, Articulation.ofNat? n = some x := by
  interval_cases n <;> exact ⟨_, rfl⟩

theorem chord_ofNat_isSome {n : Nat} (h : n ≤ 1) :
    ∃ x, Chord.ofNat? n = some x := by
  interval_cases n <;> exact ⟨_, rfl⟩

theorem voice_ofNat_isSome {n : Nat} (h : n ≤ 3) :
    ∃ x, Voice.ofNat? n = some x := by
  interval_cases n <;> exact ⟨_, rfl⟩

/-- C7 counterexample: a NoteData record whose pitch field is 98 — above
the supported range 1..97 — decodes successfully to `Pitch 98` instead of
returning a decode error, because `new_from_numeric` performs no range
check. -/
theorem c7_counterexample :
    decodeRecord (2 * 1073741824 + 98 * 8388608) =
      some (.noteRest ⟨.pitch 98, .none, .semiHemiDemiSemiQuaver, false,
        .noArpeggiation, .none, .none, .none, .none, .noChord, .none, .one⟩) := by
  decide

/-- C7 (amended): decoding a NoteData record succeeds exactly when the
phrase_dynamics, trill, ties and slur fields are legal enum values; every
other field of the record — including the 7-bit pitch field, which is not
range-checked at all — accepts any value its bit width allows. -/
theorem c7_note_field_validation
    (p pd rv d a sn ar tr ti ch sl v : Nat)
    (hp : p ≤ 127) (hpd : pd ≤ 15) (hrv : rv ≤ 7) (hd : d ≤ 1) (ha : a ≤ 1)
    (hsn : sn ≤ 3) (har : ar ≤ 7) (htr : tr ≤ 3) (hti : ti ≤ 3) (hch : ch ≤ 1)
    (hsl : sl ≤ 3) (hv : v ≤ 3) :
    (decodeRecord (2 * 1073741824 + p * 8388608 + pd * 524288 + rv * 65536 +
      d * 32768 + a * 16384 + sn * 4096 + ar * 512 + tr * 128 + ti * 32 +
      ch * 16 + sl * 4 + v)).isSome = true ↔
    (pd ≤ 14 ∧ tr ≤ 2 ∧ ti ≤ 2 ∧ sl ≤ 2) := by
  have e0 : (2 * 1073741824 + p * 8388608 + pd * 524288 + rv * 65536 +
      d * 32768 + a * 16384 + sn * 4096 + ar * 512 + tr * 128 + ti * 32 +
      ch * 16 + sl * 4 + v) / 1073741824 = 2 := by omega
  have e1 : (2 * 1073741824 + p * 8388608 + pd * 524288 + rv * 65536 +
      d * 32768 + a * 16384 + sn * 4096 + ar * 512 + tr * 128 + ti * 32 +
      ch * 16 + sl * 4 + v) / 8388608 % 128 = p := by omega
  have e2 : (2 * 1073741824 + p * 8388608 + pd * 524288 + rv * 65536 +
      d * 32768 + a * 16384 + sn * 4096 + ar * 512 + tr * 128 + ti * 32 +
      ch * 16 + sl * 4 + v) / 524288 % 16 = pd := by omega
  have e3 : (2 * 1073741824 + p * 8388608 + pd * 524288 + rv * 65536 +
      d * 32768 + a * 16384 + sn * 4096 + ar * 512 + tr * 128 + ti * 32 +
      ch * 16 + sl * 4 + v) / 65536 % 8 = rv := by omega
  have e4 : (2 * 1073741824 + p * 8388608 + pd * 524288 + rv * 65536 +
      d * 32768 + a * 16384 + sn * 4096 + ar * 512 + tr * 128 + ti * 32 +
      ch * 16 + sl * 4 + v) / 32768 % 2 = d := by omega
  have e5 : (2 * 1073741824 + p * 8388608 + pd * 524288 + rv * 65536 +
      d * 32768 + a * 16384 + sn * 4096 + ar * 512 + tr * 128 + ti * 32 +
      ch * 16 + sl * 4 + v) / 16384 % 2 = a := by omega
  have e6 : (2 * 1073741824 + p * 8388608 + pd * 524288 + rv * 65536 +
      d * 32768 + a * 16384 + sn * 4096 + ar * 512 + tr * 128 + ti * 32 +
      ch * 16 + sl * 4 + v) / 4096 % 4 = sn := by omega
  have e7 : (2 * 1073741824 + p * 8388608 + pd * 524288 + rv * 65536 +
      d * 32768 + a * 16384 + sn * 4096 + ar * 512 + tr * 128 + ti * 32 +
      ch * 16 + sl * 4 + v) / 512 % 8 = ar := by omega
  have e8 : (2 * 1073741824 + p * 8388608 + pd * 524288 + rv * 65536 +
      d * 32768 + a * 16384 + sn * 4096 + ar * 512 + tr * 128 + ti * 32 +
      ch * 16 + sl * 4 + v) / 128 % 4 = tr := by omega
  have e9 : (2 * 1073741824 + p * 8388608 + pd * 524288 + rv * 65536 +
      d * 32768 + a * 16384 + sn * 4096 + ar * 512 + tr * 128 + ti * 32 +
      ch * 16 + sl * 4 + v) / 32 % 4 = ti := by omega
  have e10 : (2 * 1073741824 + p * 8388608 + pd * 524288 + rv * 65536 +
      d * 32768 + a * 16384 + sn * 4096 + ar * 512 + tr * 128 + ti * 32 +
      ch * 16 + sl * 4 + v) / 16 % 2 = ch := by omega
  have e11 : (2 * 1073741824 + p * 8388608 + pd * 524288 + rv * 65536 +
      d * 32768 + a * 16384 + sn * 4096 + ar * 512 + tr * 128 + ti * 32 +
      ch * 16 + sl * 4 + v) / 4 % 4 = sl := by omega
  have e12 : (2 * 1073741824 + p * 8388608 + pd * 524288 + rv * 65536 +
      d * 32768 + a * 16384 + sn * 4096 + ar * 512 + tr * 128 + ti * 32 +
      ch * 16 + sl * 4 + v) % 4 = v := by omega
  obtain ⟨xrv, hxrv⟩ := rhythmType_ofNat_isSome hrv
  obtain ⟨xa, hxa⟩ := arpeggiate_ofNat_isSome ha
  obtain ⟨xsn, hxsn⟩ := specialNote_ofNat_isSome hsn
  obtain ⟨xar, hxar⟩ := articulation_ofNat_isSome har
  obtain ⟨xch, hxch⟩ := chord_ofNat_isSome hch
  obtain ⟨xv, hxv⟩ := voice_ofNat_isSome hv
  have hpd' := phraseDynamics_isSome_ofNat hpd
  have htr' := trill_isSome_ofNat htr
  have hti' := noteConnection_isSome_ofNat hti
  have hsl' := slurConnection_isSome_ofNat hsl
  simp only [decodeRecord, e0, decodeNoteData, e1, e2, e3, e4, e5, e6, e7,
    e8, e9, e10, e11, e12, hxrv, hxa, hxsn, hxar, hxch, hxv,
    Option.bind_eq_bind, Option.some_bind]
  cases h1 : PhraseDynamics.ofNat? pd <;> rw [h1] at hpd' <;>
    cases h2 : Trill.ofNat? tr <;> rw [h2] at htr' <;>
    cases h3 : NoteConnection.ofNat? ti <;> rw [h3] at hti' <;>
    cases h4 : SlurConnection.ofNat? sl <;> rw [h4] at hsl' <;>
    simp_all

/-- C7 witness: the field-validation theorem at a concrete record with an
out-of-range phrase_dynamics field (15). -/
theorem c7_note_field_validation_witness :
    ((decodeRecord (2 * 1073741824 + 98 * 8388608 + 15 * 524288 + 0 * 65536 +
      0 * 32768 + 0 * 16384 + 0 * 4096 + 0 * 512 + 0 * 128 + 0 * 32 +
      0 * 16 + 0 * 4 + 0)).isSome = true ↔
    ((15 : Nat) ≤ 14 ∧ (0 : Nat) ≤ 2 ∧ (0 : Nat) ≤ 2 ∧ (0 : Nat) ≤ 2)) :=
  c7_note_field_validation 98 15 0 0 0 0 0 0 0 0 0 0 (by decide) (by decide)
    (by decide) (by decide) (by decide) (by decide) (by decide) (by decide)
    (by decide) (by decide) (by decide) (by decide)

/-- C3: a whole-note (SemiBreve) PITCH duration is `divisions * 4` as the
claim states, but the whole-note REST branch computes
`divisions * beats / beat_type` — the claimed factor 4 is absent.  At
divisions 480 in 4/4 the code yields 480 where the claim (and the
function's own comment, "in 4/4, it would be 4 crochets") requires 1920. -/
theorem c3_semibreve_rest_duration :
    (∀ divisions beats beatType : Nat,
      (⟨.pitch 65, .none, .semiBreve, false, .noArpeggiation, .none, .none,
        .none, .none, .noChord, .none, .one⟩ : NoteData).getDurationNumeric
          divisions beats beatType none = divisions * 4) ∧
    (NoteData.newDefaultRest .semiBreve false .one).getDurationNumeric
      480 4 4 none = 480 ∧
    480 * 4 * 4 / 4 = 1920 := by
  refine ⟨fun divisions beats beatType => ?_, by decide, by decide⟩
  simp [NoteData.getDurationNumeric]

set_option maxRecDepth 8000 in
/-- C4: `from_numeric_duration` never returns None — at ticks 23041 with
divisions 480 no (rhythm type, dot, tuplet ratio) combination reproduces
the tick count (every representable duration is at most 23040), yet the
function returns `Some (SemiBreve, false, None)` instead of the claimed
None / UnrepresentableDuration failure. -/
theorem c4_unrepresentable_not_none :
    NoteData.fromNumericDuration 23041 480 =
      some (.semiBreve, false, none) ∧
    (∀ (rt : RhythmType) (d : Bool) (tm : Option TimeModification),
      (⟨.pitch 60, .none, rt, d, .noArpeggiation, .none, .none, .none,
        .none, .noChord, .none, .one⟩ : NoteData).getDurationNumeric
          480 4 4 tm ≠ 23041) := by
  constructor
  · decide
  · decide

/-- Bool form of a failed dotted test. -/
theorem isDottedMatch_false (b d : Nat) (h : 3 * b / 2 ≠ d) :
    isDottedMatch b d = false := by
  show (3 * b / 2 == d) = false
  exact beq_eq_false_iff_ne.mpr h

/-- Bool form of a successful dotted test. -/
theorem isDottedMatch_true (b d : Nat) (h : 3 * b / 2 = d) :
    isDottedMatch b d = true := by
  show (3 * b / 2 == d) = true
  exact beq_iff_eq.mpr h

/-- One halving step of the shrink loop: the base is still above the
target and the dotted test fails after the halving. -/
theorem shrinkAux_advance (nd fuel base exp : Nat) (h : base > nd)
    (hdm : isDottedMatch (base / 2) nd = false) :
    shrinkAux nd (fuel + 1) base exp = shrinkAux nd fuel (base / 2) (exp + 1) := by
  show (if base > nd then
      if isDottedMatch (base / 2) nd then (base / 2, exp + 1, true)
      else shrinkAux nd fuel (base / 2) (exp + 1)
    else (base, exp, false)) = shrinkAux nd fuel (base / 2) (exp + 1)
  rw [if_pos h, hdm, if_neg Bool.false_ne_true]

/-- A halving step of the shrink loop whose dotted test succeeds. -/
theorem shrinkAux_found (nd fuel base exp : Nat) (h : base > nd)
    (hdm : isDottedMatch (base / 2) nd = true) :
    shrinkAux nd (fuel + 1) base exp = (base / 2, exp + 1, true) := by
  show (if base > nd then
      if isDottedMatch (base / 2) nd then (base / 2, exp + 1, true)
      else shrinkAux nd fuel (base / 2) (exp + 1)
    else (base, exp, false)) = (base / 2, exp + 1, true)
  rw [if_pos h, hdm, if_pos rfl]

/-- Exit of the shrink loop: the base is no longer above the target. -/
theorem shrinkAux_stop (nd fuel base exp : Nat) (h : ¬ base > nd) :
    shrinkAux nd (fuel + 1) base exp = (base, exp, false) := by
  show (if base > nd then
      if isDottedMatch (base / 2) nd then (base / 2, exp + 1, true)
      else shrinkAux nd fuel (base / 2) (exp + 1)
    else (base, exp, false)) = (base, exp, false)
  rw [if_neg h]

/-- One doubling step of the grow loop: the base is still below the
target and the dotted test fails after the doubling. -/
theorem growLoop_advance (nd base exp : Nat) (h : base < nd)
    (hdm : isDottedMatch (base * 2) nd = false) :
    growLoop nd base (exp + 1) = growLoop nd (base * 2) exp := by
  show (if base < nd then
      if isDottedMatch (base * 2) nd then (base * 2, exp, true)
      else growLoop nd (base * 2) exp
    else (base, exp + 1, false)) = growLoop nd (base * 2) exp
  rw [if_pos h, hdm, if_neg Bool.false_ne_true]

/-- A doubling step of the grow loop whose dotted test succeeds. -/
theorem growLoop_found (nd base exp : Nat) (h : base < nd)
    (hdm : isDottedMatch (base * 2) nd = true) :
    growLoop nd base (exp + 1) = (base * 2, exp, true) := by
  show (if base < nd then
      if isDottedMatch (base * 2) nd then (base * 2, exp, true)
      else growLoop nd (base * 2) exp
    else (base, exp + 1, false)) = (base * 2, exp, true)
  rw [if_pos h, hdm, if_pos rfl]

/-- Exit of the grow loop: the base is no longer below the target. -/
theorem growLoop_stop (nd base exp : Nat) (h : ¬ base < nd) :
    growLoop nd base (exp + 1) = (base, exp + 1, false) := by
  show (if base < nd then
      if isDottedMatch (base * 2) nd then (base * 2, exp, true)
      else growLoop nd (base * 2) exp
    else (base, exp + 1, false)) = (base, exp + 1, false)
  rw [if_neg h]

/-- With the base equal to the target, every `nn` of the tuplet search
finds `an = nn` first or nothing at all, so the outer loop always
continues and the search yields no time modification. -/
theorem tupletSearchGo_self (b : Nat) (hb : 0 < b) :
    ∀ l : List Nat, tupletSearchGo b b l = Option.none := by
  intro l
  induction l with
  | nil => rfl
  | cons nn rest ih =>
    simp only [tupletSearchGo]
    cases hf : tupletANs.find? (fun an => b * nn == b * an) with
    | none => exact ih
    | some an =>
      have h1 := List.find?_some hf
      have h2 : an = nn :=
        (Nat.eq_of_mul_eq_mul_left hb (beq_iff_eq.mp h1)).symm
      subst h2
      simp [ih]

/-- Entry-point form of `tupletSearchGo_self`. -/
theorem tupletSearch_self (b : Nat) (hb : 0 < b) :
    tupletSearch b b = Option.none :=
  tupletSearchGo_self b hb tupletNNs

/-- Unfolding of `from_numeric_duration` on the path where no dotted form
matches and the loops end at base `b2`: the result is undotted with the
tuplet search's outcome at `b2`. -/
theorem fromNumericDuration_undotted (nd qd b e b2 e2 : Nat)
    (h0 : isDottedMatch qd nd = false)
    (hs : shrinkLoop nd qd 2 = (b, e, false))
    (hg : growLoop nd b e = (b2, e2, false))
    (ht : tupletSearch b2 nd = Option.none) :
    NoteData.fromNumericDuration nd qd =
      some (rhythmOfExp e2, false, Option.none) := by
  simp [NoteData.fromNumericDuration, h0, hs, hg, ht]

/-- Unfolding of `from_numeric_duration` when the shrink loop finds a
dotted match. -/
theorem fromNumericDuration_shrink_dotted (nd qd b e : Nat)
    (h0 : isDottedMatch qd nd = false)
    (hs : shrinkLoop nd qd 2 = (b, e, true)) :
    NoteData.fromNumericDuration nd qd =
      some (rhythmOfExp e, true, Option.none) := by
  simp [NoteData.fromNumericDuration, h0, hs]

/-- Unfolding of `from_numeric_duration` when the grow loop finds a
dotted match. -/
theorem fromNumericDuration_grow_dotted (nd qd b e b2 e2 : Nat)
    (h0 : isDottedMatch qd nd = false)
    (hs : shrinkLoop nd qd 2 = (b, e, false))
    (hg : growLoop nd b e = (b2, e2, true)) :
    NoteData.fromNumericDuration nd qd =
      some (rhythmOfExp e2, true, Option.none) := by
  simp [NoteData.fromNumericDuration, h0, hs, hg]

/-- Unfolding of `from_numeric_duration` when the initial dotted test at
the quarter-note base succeeds. -/
theorem fromNumericDuration_dotted0 (nd qd : Nat)
    (h0 : isDottedMatch qd nd = true) :
    NoteData.fromNumericDuration nd qd =
      some (RhythmType.crochet, true, Option.none) := by
  simp [NoteData.fromNumericDuration, h0]

/-- C5 counterexample: at divisions 5 the time-modified combination
(Minim, dotted=false, 5:2) is exactly representable — its duration
5*2*2/5 = 4 incurs no truncation — yet `from_numeric_duration 4 5`
returns a plain undotted crochet with no tuplet, whose duration at
divisions 5 is 5, not 4: neither an equivalent (rhythm, dotted) pair nor
the expected tuplet representation is recovered. -/
theorem c5_counterexample :
    (pitchNoteOf RhythmType.minim false).getDurationNumeric 5 4 4
      (some ⟨TupletActual.five, TupletNormal.two⟩) = 4 ∧
    5 * 2 * 2 % (1 * 5) = 0 ∧
    NoteData.fromNumericDuration 4 5 = some (RhythmType.crochet, false, none) ∧
    (pitchNoteOf RhythmType.crochet false).getDurationNumeric 5 4 4 none = 5 := by
  decide

/-- C5: with no time modification, at every divisions value and for every
(rhythm type, dotted) pair whose exact duration incurs no truncation
(`2^index * denom` divides `4 * numer * divisions`),
`from_numeric_duration` inverts `get_duration_numeric`: it returns a
rhythm/dot pair with no tuplet whose duration equals the input; at
divisions 480 all sixteen pairs are recovered literally; and the three
concrete scenarios hold: 720 ticks at 480 gives a dotted crochet, 1920
ticks at 480 a plain semibreve, and 96 ticks at 336 a plain quaver under
a 7:4 time modification. -/
theorem c5_duration_inverse :
    (∀ (dvs : Nat) (rt : RhythmType) (d : Bool),
      2 ^ expOfRhythm rt * (if d then 2 else 1) ∣ 4 * (if d then 3 else 1) * dvs →
      inverseMeasure dvs (NoteData.fromNumericDuration
          ((pitchNoteOf rt d).getDurationNumeric dvs 4 4 none) dvs) =
        some ((pitchNoteOf rt d).getDurationNumeric dvs 4 4 none, none)) ∧
    (∀ (rt : RhythmType) (d : Bool),
      NoteData.fromNumericDuration
        ((pitchNoteOf rt d).getDurationNumeric 480 4 4 none) 480 =
        some (rt, d, none)) ∧
    NoteData.fromNumericDuration 720 480 = some (.crochet, true, none) ∧
    NoteData.fromNumericDuration 1920 480 = some (.semiBreve, false, none) ∧
    NoteData.fromNumericDuration 96 336 =
      some (.quaver, false, some ⟨.seven, .four⟩) := by
  refine ⟨?_, by decide, by decide, by decide, by decide⟩
  intro dvs rt d hdiv
  cases rt <;> cases d
  · -- semiHemiDemiSemiQuaver, undotted
    have hM : 32 ∣ dvs := by
      simp [expOfRhythm] at hdiv
      omega
    obtain ⟨q, rfl⟩ : ∃ q, dvs = 32 * q := ⟨dvs / 32, by omega⟩
    have hdur : (pitchNoteOf RhythmType.semiHemiDemiSemiQuaver false).getDurationNumeric
        (32 * q) 4 4 none = q := by
      show 32 * q * 1 / 32 / 1 = q
      omega
    rw [hdur]
    rcases Nat.lt_or_ge q 2 with hq | hq
    · interval_cases q <;> decide
    · have h0 : isDottedMatch (32 * q) q = false := isDottedMatch_false _ _ (by omega)
      have hs : shrinkLoop q (32 * q) 2 = (q, 7, false) := by
        show shrinkAux q 5 (32 * q) 2 = (q, 7, false)
        rw [shrinkAux_advance q 4 (32 * q) 2 (by omega) (isDottedMatch_false _ _ (by omega)),
          (show 32 * q / 2 = 16 * q by omega),
          shrinkAux_advance q 3 (16 * q) 3 (by omega) (isDottedMatch_false _ _ (by omega)),
          (show 16 * q / 2 = 8 * q by omega),
          shrinkAux_advance q 2 (8 * q) 4 (by omega) (isDottedMatch_false _ _ (by omega)),
          (show 8 * q / 2 = 4 * q by omega),
          shrinkAux_advance q 1 (4 * q) 5 (by omega) (isDottedMatch_false _ _ (by omega)),
          (show 4 * q / 2 = 2 * q by omega),
          shrinkAux_advance q 0 (2 * q) 6 (by omega) (isDottedMatch_false _ _ (by omega)),
          (show 2 * q / 2 = q by omega)]
        rfl
      have hg : growLoop q q 7 = (q, 7, false) := growLoop_stop q q 6 (by omega)
      rw [fromNumericDuration_undotted q (32 * q) q 7 q 7 h0 hs hg
        (tupletSearch_self q (by omega))]
      show some ((32 * q * 1 / 32 / 1 : Nat), (Option.none : Option TimeModification)) =
        some (q, Option.none)
      rw [show 32 * q * 1 / 32 / 1 = q by omega]
  · -- semiHemiDemiSemiQuaver, dotted
    have hM : 64 ∣ dvs := by
      simp [expOfRhythm] at hdiv
      omega
    obtain ⟨q, rfl⟩ : ∃ q, dvs = 64 * q := ⟨dvs / 64, by omega⟩
    have hdur : (pitchNoteOf RhythmType.semiHemiDemiSemiQuaver true).getDurationNumeric
        (64 * q) 4 4 none = 3 * q := by
      show 64 * q * 3 / 32 / 2 = 3 * q
      omega
    rw [hdur]
    rcases Nat.eq_zero_or_pos q with rfl | hq
    · decide
    · have h0 : isDottedMatch (64 * q) (3 * q) = false :=
        isDottedMatch_false _ _ (by omega)
      have hs : shrinkLoop (3 * q) (64 * q) 2 = (2 * q, 7, true) := by
        show shrinkAux (3 * q) 5 (64 * q) 2 = (2 * q, 7, true)
        rw [shrinkAux_advance (3 * q) 4 (64 * q) 2 (by omega)
            (isDottedMatch_false _ _ (by omega)),
          (show 64 * q / 2 = 32 * q by omega),
          shrinkAux_advance (3 * q) 3 (32 * q) 3 (by omega)
            (isDottedMatch_false _ _ (by omega)),
          (show 32 * q / 2 = 16 * q by omega),
          shrinkAux_advance (3 * q) 2 (16 * q) 4 (by omega)
            (isDottedMatch_false _ _ (by omega)),
          (show 16 * q / 2 = 8 * q by omega),
          shrinkAux_advance (3 * q) 1 (8 * q) 5 (by omega)
            (isDottedMatch_false _ _ (by omega)),
          (show 8 * q / 2 = 4 * q by omega),
          shrinkAux_found (3 * q) 0 (4 * q) 6 (by omega)
            (isDottedMatch_true _ _ (by omega)),
          (show 4 * q / 2 = 2 * q by omega)]
      rw [fromNumericDuration_shrink_dotted (3 * q) (64 * q) (2 * q) 7 h0 hs]
      show some ((64 * q * 3 / 32 / 2 : Nat), (Option.none : Option TimeModification)) =
        some (3 * q, Option.none)
      rw [show 64 * q * 3 / 32 / 2 = 3 * q by omega]
  · -- hemiDemiSemiQuaver, undotted
    have hM : 16 ∣ dvs := by
      simp [expOfRhythm] at hdiv
      omega
    obtain ⟨q, rfl⟩ : ∃ q, dvs = 16 * q := ⟨dvs / 16, by omega⟩
    have hdur : (pitchNoteOf RhythmType.hemiDemiSemiQuaver false).getDurationNumeric
        (16 * q) 4 4 none = q := by
      show 16 * q * 1 / 16 / 1 = q
      omega
    rw [hdur]
    rcases Nat.lt_or_ge q 2 with hq | hq
    · interval_cases q <;> decide
    · have h0 : isDottedMatch (16 * q) q = false := isDottedMatch_false _ _ (by omega)
      have hs : shrinkLoop q (16 * q) 2 = (q, 6, false) := by
        show shrinkAux q 5 (16 * q) 2 = (q, 6, false)
        rw [shrinkAux_advance q 4 (16 * q) 2 (by omega) (isDottedMatch_false _ _ (by omega)),
          (show 16 * q / 2 = 8 * q by omega),
          shrinkAux_advance q 3 (8 * q) 3 (by omega) (isDottedMatch_false _ _ (by omega)),
          (show 8 * q / 2 = 4 * q by omega),
          shrinkAux_advance q 2 (4 * q) 4 (by omega) (isDottedMatch_false _ _ (by omega)),
          (show 4 * q / 2 = 2 * q by omega),
          shrinkAux_advance q 1 (2 * q) 5 (by omega) (isDottedMatch_false _ _ (by omega)),
          (show 2 * q / 2 = q by omega),
          shrinkAux_stop q 0 q 6 (by omega)]
      have hg : growLoop q q 6 = (q, 6, false) := growLoop_stop q q 5 (by omega)
      rw [fromNumericDuration_undotted q (16 * q) q 6 q 6 h0 hs hg
        (tupletSearch_self q (by omega))]
      show some ((16 * q * 1 / 16 / 1 : Nat), (Option.none : Option TimeModification)) =
        some (q, Option.none)
      rw [show 16 * q * 1 / 16 / 1 = q by omega]
  · -- hemiDemiSemiQuaver, dotted
    have hM : 32 ∣ dvs := by
      simp [expOfRhythm] at hdiv
      omega
    obtain ⟨q, rfl⟩ : ∃ q, dvs = 32 * q := ⟨dvs / 32, by omega⟩
    have hdur : (pitchNoteOf RhythmType.hemiDemiSemiQuaver true).getDurationNumeric
        (32 * q) 4 4 none = 3 * q := by
      show 32 * q * 3 / 16 / 2 = 3 * q
      omega
    rw [hdur]
    rcases Nat.eq_zero_or_pos q with rfl | hq
    · decide
    · have h0 : isDottedMatch (32 * q) (3 * q) = false :=
        isDottedMatch_false _ _ (by omega)
      have hs : shrinkLoop (3 * q) (32 * q) 2 = (2 * q, 6, true) := by
        show shrinkAux (3 * q) 5 (32 * q) 2 = (2 * q, 6, true)
        rw [shrinkAux_advance (3 * q) 4 (32 * q) 2 (by omega)
            (isDottedMatch_false _ _ (by omega)),
          (show 32 * q / 2 = 16 * q by omega),
          shrinkAux_advance (3 * q) 3 (16 * q) 3 (by omega)
            (isDottedMatch_false _ _ (by omega)),
          (show 16 * q / 2 = 8 * q by omega),
          shrinkAux_advance (3 * q) 2 (8 * q) 4 (by omega)
            (isDottedMatch_false _ _ (by omega)),
          (show 8 * q / 2 = 4 * q by omega),
          shrinkAux_found (3 * q) 1 (4 * q) 5 (by omega)
            (isDottedMatch_true _ _ (by omega)),
          (show 4 * q / 2 = 2 * q by omega)]
      rw [fromNumericDuration_shrink_dotted (3 * q) (32 * q) (2 * q) 6 h0 hs]
      show some ((32 * q * 3 / 16 / 2 : Nat), (Option.none : Option TimeModification)) =
        some (3 * q, Option.none)
      rw [show 32 * q * 3 / 16 / 2 = 3 * q by omega]
  · -- demiSemiQuaver, undotted
    have hM : 8 ∣ dvs := by
      simp [expOfRhythm] at hdiv
      omega
    obtain ⟨q, rfl⟩ : ∃ q, dvs = 8 * q := ⟨dvs / 8, by omega⟩
    have hdur : (pitchNoteOf RhythmType.demiSemiQuaver false).getDurationNumeric
        (8 * q) 4 4 none = q := by
      show 8 * q * 1 / 8 / 1 = q
      omega
    rw [hdur]
    rcases Nat.lt_or_ge q 2 with hq | hq
    · interval_cases q <;> decide
    · have h0 : isDottedMatch (8 * q) q = false := isDottedMatch_false _ _ (by omega)
      have hs : shrinkLoop q (8 * q) 2 = (q, 5, false) := by
        show shrinkAux q 5 (8 * q) 2 = (q, 5, false)
        rw [shrinkAux_advance q 4 (8 * q) 2 (by omega) (isDottedMatch_false _ _ (by omega)),
          (show 8 * q / 2 = 4 * q by omega),
          shrinkAux_advance q 3 (4 * q) 3 (by omega) (isDottedMatch_false _ _ (by omega)),
          (show 4 * q / 2 = 2 * q by omega),
          shrinkAux_advance q 2 (2 * q) 4 (by omega) (isDottedMatch_false _ _ (by omega)),
          (show 2 * q / 2 = q by omega),
          shrinkAux_stop q 1 q 5 (by omega)]
      have hg : growLoop q q 5 = (q, 5, false) := growLoop_stop q q 4 (by omega)
      rw [fromNumericDuration_undotted q (8 * q) q 5 q 5 h0 hs hg
        (tupletSearch_self q (by omega))]
      show some ((8 * q * 1 / 8 / 1 : Nat), (Option.none : Option TimeModification)) =
        some (q, Option.none)
      rw [show 8 * q * 1 / 8 / 1 = q by omega]
  · -- demiSemiQuaver, dotted
    have hM : 16 ∣ dvs := by
      simp [expOfRhythm] at hdiv
      omega
    obtain ⟨q, rfl⟩ : ∃ q, dvs = 16 * q := ⟨dvs / 16, by omega⟩
    have hdur : (pitchNoteOf RhythmType.demiSemiQuaver true).getDurationNumeric
        (16 * q) 4 4 none = 3 * q := by
      show 16 * q * 3 / 8 / 2 = 3 * q
      omega
    rw [hdur]
    rcases Nat.eq_zero_or_pos q with rfl | hq
    · decide
    · have h0 : isDottedMatch (16 * q) (3 * q) = false :=
        isDottedMatch_false _ _ (by omega)
      have hs : shrinkLoop (3 * q) (16 * q) 2 = (2 * q, 5, true) := by
        show shrinkAux (3 * q) 5 (16 * q) 2 = (2 * q, 5, true)
        rw [shrinkAux_advance (3 * q) 4 (16 * q) 2 (by omega)
            (isDottedMatch_false _ _ (by omega)),
          (show 16 * q / 2 = 8 * q by omega),
          shrinkAux_advance (3 * q) 3 (8 * q) 3 (by omega)
            (isDottedMatch_false _ _ (by omega)),
          (show 8 * q / 2 = 4 * q by omega),
          shrinkAux_found (3 * q) 2 (4 * q) 4 (by omega)
            (isDottedMatch_true _ _ (by omega)),
          (show 4 * q / 2 = 2 * q by omega)]
      rw [fromNumericDuration_shrink_dotted (3 * q) (16 * q) (2 * q) 5 h0 hs]
      show some ((16 * q * 3 / 8 / 2 : Nat), (Option.none : Option TimeModification)) =
        some (3 * q, Option.none)
      rw [show 16 * q * 3 / 8 / 2 = 3 * q by omega]
  · -- semiQuaver, undotted
    have hM : 4 ∣ dvs := by
      simp [expOfRhythm] at hdiv
      omega
    obtain ⟨q, rfl⟩ : ∃ q, dvs = 4 * q := ⟨dvs / 4, by omega⟩
    have hdur : (pitchNoteOf RhythmType.semiQuaver false).getDurationNumeric
        (4 * q) 4 4 none = q := by
      show 4 * q * 1 / 4 / 1 = q
      omega
    rw [hdur]
    rcases Nat.lt_or_ge q 2 with hq | hq
    · interval_cases q <;> decide
    · have h0 : isDottedMatch (4 * q) q = false := isDottedMatch_false _ _ (by omega)
      have hs : shrinkLoop q (4 * q) 2 = (q, 4, false) := by
        show shrinkAux q 5 (4 * q) 2 = (q, 4, false)
        rw [shrinkAux_advance q 4 (4 * q) 2 (by omega) (isDottedMatch_false _ _ (by omega)),
          (show 4 * q / 2 = 2 * q by omega),
          shrinkAux_advance q 3 (2 * q) 3 (by omega) (isDottedMatch_false _ _ (by omega)),
          (show 2 * q / 2 = q by omega),
          shrinkAux_stop q 2 q 4 (by omega)]
      have hg : growLoop q q 4 = (q, 4, false) := growLoop_stop q q 3 (by omega)
      rw [fromNumericDuration_undotted q (4 * q) q 4 q 4 h0 hs hg
        (tupletSearch_self q (by omega))]
      show some ((4 * q * 1 / 4 / 1 : Nat), (Option.none : Option TimeModification)) =
        some (q, Option.none)
      rw [show 4 * q * 1 / 4 / 1 = q by omega]
  · -- semiQuaver, dotted
    have hM : 8 ∣ dvs := by
      simp [expOfRhythm] at hdiv
      omega
    obtain ⟨q, rfl⟩ : ∃ q, dvs = 8 * q := ⟨dvs / 8, by omega⟩
    have hdur : (pitchNoteOf RhythmType.semiQuaver true).getDurationNumeric
        (8 * q) 4 4 none = 3 * q := by
      show 8 * q * 3 / 4 / 2 = 3 * q
      omega
    rw [hdur]
    rcases Nat.eq_zero_or_pos q with rfl | hq
    · decide
    · have h0 : isDottedMatch (8 * q) (3 * q) = false :=
        isDottedMatch_false _ _ (by omega)
      have hs : shrinkLoop (3 * q) (8 * q) 2 = (2 * q, 4, true) := by
        show shrinkAux (3 * q) 5 (8 * q) 2 = (2 * q, 4, true)
        rw [shrinkAux_advance (3 * q) 4 (8 * q) 2 (by omega)
            (isDottedMatch_false _ _ (by omega)),
          (show 8 * q / 2 = 4 * q by omega),
          shrinkAux_found (3 * q) 3 (4 * q) 3 (by omega)
            (isDottedMatch_true _ _ (by omega)),
          (show 4 * q / 2 = 2 * q by omega)]
      rw [fromNumericDuration_shrink_dotted (3 * q) (8 * q) (2 * q) 4 h0 hs]
      show some ((8 * q * 3 / 4 / 2 : Nat), (Option.none : Option TimeModification)) =
        some (3 * q, Option.none)
      rw [show 8 * q * 3 / 4 / 2 = 3 * q by omega]
  · -- quaver, undotted
    have hM : 2 ∣ dvs := by
      simp [expOfRhythm] at hdiv
      omega
    obtain ⟨q, rfl⟩ : ∃ q, dvs = 2 * q := ⟨dvs / 2, by omega⟩
    have hdur : (pitchNoteOf RhythmType.quaver false).getDurationNumeric
        (2 * q) 4 4 none = q := by
      show 2 * q * 1 / 2 / 1 = q
      omega
    rw [hdur]
    rcases Nat.lt_or_ge q 2 with hq | hq
    · interval_cases q <;> decide
    · have h0 : isDottedMatch (2 * q) q = false := isDottedMatch_false _ _ (by omega)
      have hs : shrinkLoop q (2 * q) 2 = (q, 3, false) := by
        show shrinkAux q 5 (2 * q) 2 = (q, 3, false)
        rw [shrinkAux_advance q 4 (2 * q) 2 (by omega) (isDottedMatch_false _ _ (by omega)),
          (show 2 * q / 2 = q by omega),
          shrinkAux_stop q 3 q 3 (by omega)]
      have hg : growLoop q q 3 = (q, 3, false) := growLoop_stop q q 2 (by omega)
      rw [fromNumericDuration_undotted q (2 * q) q 3 q 3 h0 hs hg
        (tupletSearch_self q (by omega))]
      show some ((2 * q * 1 / 2 / 1 : Nat), (Option.none : Option TimeModification)) =
        some (q, Option.none)
      rw [show 2 * q * 1 / 2 / 1 = q by omega]
  · -- quaver, dotted
    have hM : 4 ∣ dvs := by
      simp [expOfRhythm] at hdiv
      omega
    obtain ⟨q, rfl⟩ : ∃ q, dvs = 4 * q := ⟨dvs / 4, by omega⟩
    have hdur : (pitchNoteOf RhythmType.quaver true).getDurationNumeric
        (4 * q) 4 4 none = 3 * q := by
      show 4 * q * 3 / 2 / 2 = 3 * q
      omega
    rw [hdur]
    rcases Nat.eq_zero_or_pos q with rfl | hq
    · decide
    · have h0 : isDottedMatch (4 * q) (3 * q) = false :=
        isDottedMatch_false _ _ (by omega)
      have hs : shrinkLoop (3 * q) (4 * q) 2 = (2 * q, 3, true) := by
        show shrinkAux (3 * q) 5 (4 * q) 2 = (2 * q, 3, true)
        rw [shrinkAux_found (3 * q) 4 (4 * q) 2 (by omega)
            (isDottedMatch_true _ _ (by omega)),
          (show 4 * q / 2 = 2 * q by omega)]
      rw [fromNumericDuration_shrink_dotted (3 * q) (4 * q) (2 * q) 3 h0 hs]
      show some ((4 * q * 3 / 2 / 2 : Nat), (Option.none : Option TimeModification)) =
        some (3 * q, Option.none)
      rw [show 4 * q * 3 / 2 / 2 = 3 * q by omega]
  · -- crochet, undotted
    have hdur : (pitchNoteOf RhythmType.crochet false).getDurationNumeric
        dvs 4 4 none = dvs := by
      show dvs * 1 / 1 = dvs
      omega
    rw [hdur]
    rcases Nat.lt_or_ge dvs 2 with hd2 | hd2
    · interval_cases dvs <;> decide
    · have h0 : isDottedMatch dvs dvs = false := isDottedMatch_false _ _ (by omega)
      have hs : shrinkLoop dvs dvs 2 = (dvs, 2, false) :=
        shrinkAux_stop dvs 4 dvs 2 (by omega)
      have hg : growLoop dvs dvs 2 = (dvs, 2, false) := growLoop_stop dvs dvs 1 (by omega)
      rw [fromNumericDuration_undotted dvs dvs dvs 2 dvs 2 h0 hs hg
        (tupletSearch_self dvs (by omega))]
      show some ((dvs * 1 / 1 : Nat), (Option.none : Option TimeModification)) =
        some (dvs, Option.none)
      rw [show dvs * 1 / 1 = dvs by omega]
  · -- crochet, dotted
    have hM : 2 ∣ dvs := by
      simp [expOfRhythm] at hdiv
      omega
    obtain ⟨k, rfl⟩ : ∃ k, dvs = 2 * k := ⟨dvs / 2, by omega⟩
    have hdur : (pitchNoteOf RhythmType.crochet true).getDurationNumeric
        (2 * k) 4 4 none = 3 * k := by
      show 2 * k * 3 / 2 = 3 * k
      omega
    rw [hdur]
    rw [fromNumericDuration_dotted0 (3 * k) (2 * k) (isDottedMatch_true _ _ (by omega))]
    show some ((2 * k * 3 / 2 : Nat), (Option.none : Option TimeModification)) =
      some (3 * k, Option.none)
    rw [show 2 * k * 3 / 2 = 3 * k by omega]
  · -- minim, undotted
    have hdur : (pitchNoteOf RhythmType.minim false).getDurationNumeric
        dvs 4 4 none = 2 * dvs := by
      show dvs * 2 * 1 / 1 = 2 * dvs
      omega
    rw [hdur]
    rcases Nat.eq_zero_or_pos dvs with rfl | hd
    · decide
    · have h0 : isDottedMatch dvs (2 * dvs) = false := isDottedMatch_false _ _ (by omega)
      have hs : shrinkLoop (2 * dvs) dvs 2 = (dvs, 2, false) :=
        shrinkAux_stop (2 * dvs) 4 dvs 2 (by omega)
      have hg : growLoop (2 * dvs) dvs 2 = (2 * dvs, 1, false) := by
        rw [growLoop_advance (2 * dvs) dvs 1 (by omega)
            (isDottedMatch_false _ _ (by omega)),
          (show dvs * 2 = 2 * dvs by omega),
          growLoop_stop (2 * dvs) (2 * dvs) 0 (by omega)]
      rw [fromNumericDuration_undotted (2 * dvs) dvs dvs 2 (2 * dvs) 1 h0 hs hg
        (tupletSearch_self (2 * dvs) (by omega))]
      show some ((dvs * 2 * 1 / 1 : Nat), (Option.none : Option TimeModification)) =
        some (2 * dvs, Option.none)
      rw [show dvs * 2 * 1 / 1 = 2 * dvs by omega]
  · -- minim, dotted
    have hdur : (pitchNoteOf RhythmType.minim true).getDurationNumeric
        dvs 4 4 none = 3 * dvs := by
      show dvs * 2 * 3 / 2 = 3 * dvs
      omega
    rw [hdur]
    rcases Nat.eq_zero_or_pos dvs with rfl | hd
    · decide
    · have h0 : isDottedMatch dvs (3 * dvs) = false := isDottedMatch_false _ _ (by omega)
      have hs : shrinkLoop (3 * dvs) dvs 2 = (dvs, 2, false) :=
        shrinkAux_stop (3 * dvs) 4 dvs 2 (by omega)
      have hg : growLoop (3 * dvs) dvs 2 = (dvs * 2, 1, true) :=
        growLoop_found (3 * dvs) dvs 1 (by omega) (isDottedMatch_true _ _ (by omega))
      rw [fromNumericDuration_grow_dotted (3 * dvs) dvs dvs 2 (dvs * 2) 1 h0 hs hg]
      show some ((dvs * 2 * 3 / 2 : Nat), (Option.none : Option TimeModification)) =
        some (3 * dvs, Option.none)
      rw [show dvs * 2 * 3 / 2 = 3 * dvs by omega]
  · -- semiBreve, undotted
    have hdur : (pitchNoteOf RhythmType.semiBreve false).getDurationNumeric
        dvs 4 4 none = 4 * dvs := by
      show dvs * 4 * 1 / 1 = 4 * dvs
      omega
    rw [hdur]
    rcases Nat.eq_zero_or_pos dvs with rfl | hd
    · decide
    · have h0 : isDottedMatch dvs (4 * dvs) = false := isDottedMatch_false _ _ (by omega)
      have hs : shrinkLoop (4 * dvs) dvs 2 = (dvs, 2, false) :=
        shrinkAux_stop (4 * dvs) 4 dvs 2 (by omega)
      have hg : growLoop (4 * dvs) dvs 2 = (4 * dvs, 0, false) := by
        rw [growLoop_advance (4 * dvs) dvs 1 (by omega)
            (isDottedMatch_false _ _ (by omega)),
          (show dvs * 2 = 2 * dvs by omega),
          growLoop_advance (4 * dvs) (2 * dvs) 0 (by omega)
            (isDottedMatch_false _ _ (by omega)),
          (show 2 * dvs * 2 = 4 * dvs by omega)]
        rfl
      rw [fromNumericDuration_undotted (4 * dvs) dvs dvs 2 (4 * dvs) 0 h0 hs hg
        (tupletSearch_self (4 * dvs) (by omega))]
      show some ((dvs * 4 * 1 / 1 : Nat), (Option.none : Option TimeModification)) =
        some (4 * dvs, Option.none)
      rw [show dvs * 4 * 1 / 1 = 4 * dvs by omega]
  · -- semiBreve, dotted
    have hdur : (pitchNoteOf RhythmType.semiBreve true).getDurationNumeric
        dvs 4 4 none = 6 * dvs := by
      show dvs * 4 * 3 / 2 = 6 * dvs
      omega
    rw [hdur]
    rcases Nat.eq_zero_or_pos dvs with rfl | hd
    · decide
    · have h0 : isDottedMatch dvs (6 * dvs) = false := isDottedMatch_false _ _ (by omega)
      have hs : shrinkLoop (6 * dvs) dvs 2 = (dvs, 2, false) :=
        shrinkAux_stop (6 * dvs) 4 dvs 2 (by omega)
      have hg : growLoop (6 * dvs) dvs 2 = (2 * dvs * 2, 0, true) := by
        rw [growLoop_advance (6 * dvs) dvs 1 (by omega)
            (isDottedMatch_false _ _ (by omega)),
          (show dvs * 2 = 2 * dvs by omega),
          growLoop_found (6 * dvs) (2 * dvs) 0 (by omega)
            (isDottedMatch_true _ _ (by omega))]
      rw [fromNumericDuration_grow_dotted (6 * dvs) dvs dvs 2 (2 * dvs * 2) 0 h0 hs hg]
      show some ((dvs * 4 * 3 / 2 : Nat), (Option.none : Option TimeModification)) =
        some (6 * dvs, Option.none)
      rw [show dvs * 4 * 3 / 2 = 6 * dvs by omega]

/-- C5 witness: the universal duration-preservation conjunct applied at
divisions 480 to an undotted quaver, whose exactness condition holds. -/
theorem c5_duration_inverse_witness :
    (2 ^ expOfRhythm RhythmType.quaver * (if false then 2 else 1) ∣
      4 * (if false then 3 else 1) * 480) ∧
    inverseMeasure 480 (NoteData.fromNumericDuration
        ((pitchNoteOf RhythmType.quaver false).getDurationNumeric 480 4 4 none) 480) =
      some ((pitchNoteOf RhythmType.quaver false).getDurationNumeric 480 4 4 none, none) :=
  ⟨by decide, c5_duration_inverse.1 480 RhythmType.quaver false (by decide)⟩

/-- C9: decoding a raw tempo to a real BPM and re-encoding returns the raw
value; `get_actual` is monotone; `Tempo::new` clamps its raw result to
0..127 and the represented BPM to 20..274; and `new_from_raw` clamps the
raw byte to 0..127. -/
theorem c9_tempo_roundtrip :
    (∀ raw : Nat, raw ≤ 127 → tempoNew (tempoGetActual raw) = raw) ∧
    (∀ r1 r2 : Nat, r1 ≤ r2 → tempoGetActual r1 ≤ tempoGetActual r2) ∧
    (∀ real : Int, tempoNew real ≤ 127) ∧
    (∀ real : Int, 20 ≤ tempoGetActual (tempoNew real) ∧
      tempoGetActual (tempoNew real) ≤ 274) ∧
    (∀ raw : Nat, tempoNewFromRaw raw ≤ 127) := by
  refine ⟨fun raw h => ?_, fun r1 r2 h => ?_, fun real => ?_,
    fun real => ?_, fun raw => ?_⟩
  · unfold tempoNew tempoGetActual
    split_ifs <;> omega
  · unfold tempoGetActual
    omega
  · unfold tempoNew
    split_ifs <;> omega
  · unfold tempoNew tempoGetActual
    split_ifs <;> omega
  · unfold tempoNewFromRaw
    split_ifs <;> omega

/-- C9 witness: the round trip at raw 57 and monotonicity at 3 and 7. -/
theorem c9_tempo_roundtrip_witness :
    tempoNew (tempoGetActual 57) = 57 ∧ tempoGetActual 3 ≤ tempoGetActual 7 :=
  ⟨c9_tempo_roundtrip.1 57 (by decide), c9_tempo_roundtrip.2.1 3 7 (by decide)⟩

/-- C10: with 4 distinct voice ids present, inserting a 5th distinct id
fails (the source's Error::OutofBounds, the spec's TooManyVoices), and the
id is removed again; inserting an already-present id, or any id while
fewer than 4 are present, succeeds and returns the id's rank in the
ascending voice-set order. -/
theorem c10_insert_new_voice :
    (∀ (voices : Finset ℕ) (v : ℕ), voices.card = 4 → v ∉ voices →
      insertNewVoice voices v = none) ∧
    (∀ (voices : Finset ℕ) (v : ℕ), voices.card ≤ 4 →
      (v ∈ voices ∨ voices.card < 4) →
      insertNewVoice voices v =
        some (insert v voices, ((insert v voices).filter (· < v)).card)) := by
  constructor
  · intro voices v hcard hnm
    unfold insertNewVoice
    rw [if_pos]
    rw [Finset.card_insert_of_not_mem hnm, hcard]
    omega
  · intro voices v hcard hm
    unfold insertNewVoice
    rw [if_neg]
    push_neg
    rcases hm with hm | hm
    · rw [Finset.insert_eq_self.mpr hm]
      omega
    · calc (insert v voices).card ≤ voices.card + 1 := Finset.card_insert_le v voices
        _ ≤ 4 := by omega

/-- C10 witness: a 5th distinct voice id is rejected; an insertion into a
2-element set succeeds with the id's rank. -/
theorem c10_insert_new_voice_witness :
    insertNewVoice ({0, 1, 2, 3} : Finset ℕ) 5 = none ∧
    insertNewVoice ({0, 1} : Finset ℕ) 3 =
      some (insert 3 {0, 1},
        ((insert 3 ({0, 1} : Finset ℕ)).filter (· < 3)).card) :=
  ⟨c10_insert_new_voice.1 {0, 1, 2, 3} 5 (by decide) (by decide),
   c10_insert_new_voice.2 {0, 1} 3 (by decide) (Or.inr (by decide))⟩

/-! Voice-equalization development for `remove_incomplete_voices`.  The
arguments all concern measures without Tuplet elements, where the active
time modification stays `none` throughout and a voice's total is a plain
sum over the buffer. -/

/-- Duration contributed to voice index `k` by one element, with no active
time modification. -/
def noteContribN (qdiv : Nat) (beats : Beats) (beatType : BeatType) (k : Nat) :
    MusicElement → Nat
  | .noteRest n =>
    if n.voice.toNat = k ∧ n.chord = Chord.noChord ∧
        n.specialNote = SpecialNote.none then
      n.getDurationNumeric qdiv beats.asU32 beatType.asU32 none
    else 0
  | _ => 0

/-- Duration of the rest `remove_incomplete_voices` synthesizes for a
discrepancy (dropping any time modification, as the source does); 0 on the
unreachable None branch. -/
def restDurOf (qdiv : Nat) (beats : Beats) (beatType : BeatType) (δ : Nat) : Nat :=
  match NoteData.fromNumericDuration δ qdiv with
  | some (rt, dot, _) =>
    (NoteData.newDefaultRest rt dot .one).getDurationNumeric
      qdiv beats.asU32 beatType.asU32 none
  | none => 0

theorem Voice.toNat_inj {x y : Voice} (h : x.toNat = y.toNat) : x = y := by
  cases x <;> cases y <;> first | rfl | exact absurd h (by decide)

/-- In a tuplet-free buffer a voice's total is the sum of the per-element
contributions at its index. -/
theorem voiceDurGo_eq_sum (qdiv : Nat) (beats : Beats) (beatType : BeatType)
    (v : Voice) (l : List MusicElement) (h : noTuplets l = true) :
    voiceDurGo qdiv beats beatType v none l =
      (l.map (noteContribN qdiv beats beatType v.toNat)).sum := by
  induction l with
  | nil => rfl
  | cons e rest ih =>
    rw [noTuplets, List.all_cons, Bool.and_eq_true] at h
    cases e with
    | tuplet t => exact absurd h.1 (by simp)
    | noteRest n =>
      show (if n.voice = v ∧ _ ∧ _ then _ else 0) + _ = _
      simp only [List.map_cons, List.sum_cons, noteContribN]
      rw [ih h.2]
      congr 1
      by_cases hc : n.voice = v
      · have hc' : n.voice.toNat = v.toNat := hc ▸ rfl
        simp [hc, hc']
      · have hc' : ¬n.voice.toNat = v.toNat := fun h' => hc (Voice.toNat_inj h')
        simp [hc, hc']
    | measureInit m =>
      show voiceDurGo qdiv beats beatType v none rest = _
      simp only [List.map_cons, List.sum_cons, noteContribN, ih h.2,
        Nat.zero_add]
    | measureMeta m =>
      show voiceDurGo qdiv beats beatType v none rest = _
      simp only [List.map_cons, List.sum_cons, noteContribN, ih h.2,
        Nat.zero_add]

/-- Inserting an element at a position within bounds adds its contribution
to a mapped sum. -/
theorem sum_map_insertIdx {α : Type} (f : α → Nat) (a : α) :
    ∀ (l : List α) (i : Nat), i ≤ l.length →
      ((l.insertIdx i a).map f).sum = (l.map f).sum + f a := by
  intro l
  induction l with
  | nil =>
    intro i hi
    have h0 : i = 0 := by simpa using hi
    subst h0
    simp
  | cons x xs ih =>
    intro i hi
    cases i with
    | zero => simp [List.insertIdx_zero]; omega
    | succ j =>
      rw [List.insertIdx_succ_cons]
      simp only [List.map_cons, List.sum_cons]
      rw [ih j (by simpa using hi)]
      omega

/-- Insertion never shortens a list. -/
theorem length_le_insertIdx {α : Type} (a : α) :
    ∀ (l : List α) (i : Nat), l.length ≤ (l.insertIdx i a).length := by
  intro l
  induction l with
  | nil => intro i; cases i <;> simp [List.insertIdx]
  | cons x xs ih =>
    intro i
    cases i with
    | zero => simp [List.insertIdx_zero]
    | succ j => rw [List.insertIdx_succ_cons]; simpa using ih j

/-- Inserting a non-tuplet element preserves tuplet-freeness. -/
theorem noTuplets_insertIdx (n : NoteData) :
    ∀ (l : List MusicElement) (i : Nat), noTuplets l = true →
      noTuplets (l.insertIdx i (.noteRest n)) = true := by
  intro l
  induction l with
  | nil =>
    intro i h
    cases i <;> simp [List.insertIdx, noTuplets]
  | cons x xs ih =>
    intro i h
    rw [noTuplets, List.all_cons, Bool.and_eq_true] at h
    cases i with
    | zero =>
      rw [List.insertIdx_zero, noTuplets, List.all_cons, List.all_cons]
      simp only [Bool.and_eq_true]
      exact ⟨by simp, h.1, h.2⟩
    | succ j =>
      rw [List.insertIdx_succ_cons, noTuplets, List.all_cons,
        Bool.and_eq_true]
      exact ⟨h.1, ih j h.2⟩

/-- During the tally pass the per-voice durations accumulate exactly the
per-element contributions, as long as the buffer holds no tuplets and the
incoming time modification is clear. -/
theorem scanGo_durs (qdiv : Nat) (beats : Beats) (beatType : BeatType) :
    ∀ (l : List MusicElement), noTuplets l = true →
      ∀ (idx : Nat) (s : ScanState), s.timeMod = none → ∀ k : Nat,
        (scanGo qdiv beats beatType idx s l).durs k =
          s.durs k + (l.map (noteContribN qdiv beats beatType k)).sum := by
  intro l
  induction l with
  | nil => intro _ idx s _ k; simp [scanGo]
  | cons e rest ih =>
    intro h idx s hs k
    rw [noTuplets, List.all_cons, Bool.and_eq_true] at h
    show (scanGo qdiv beats beatType (idx + 1)
      (scanStep qdiv beats beatType idx s e) rest).durs k = _
    cases e with
    | tuplet t => exact absurd h.1 (by simp)
    | measureInit m =>
      rw [ih h.2 (idx + 1) _ (by simpa [scanStep] using hs) k]
      simp [scanStep, noteContribN]
    | measureMeta m =>
      rw [ih h.2 (idx + 1) _ (by simpa [scanStep] using hs) k]
      simp [scanStep, noteContribN]
    | noteRest n =>
      rw [ih h.2 (idx + 1) _ (by simpa [scanStep] using hs) k]
      simp only [scanStep, hs, List.map_cons, List.sum_cons, noteContribN]
      split_ifs with h1 h2 h2 <;> simp_all <;> omega

/-- During the tally pass every recorded last index stays within the
original buffer length. -/
theorem scanGo_lastIdx_le (qdiv : Nat) (beats : Beats) (beatType : BeatType)
    (B : Nat) :
    ∀ (l : List MusicElement) (idx : Nat) (s : ScanState),
      (∀ k, s.lastIdx k ≤ B) → idx + l.length ≤ B + 1 → ∀ k,
        (scanGo qdiv beats beatType idx s l).lastIdx k ≤ B := by
  intro l
  induction l with
  | nil => intro idx s hs _ k; simpa [scanGo] using hs k
  | cons e rest ih =>
    intro idx s hs hidx k
    have hlen : idx + rest.length + 1 ≤ B + 1 := by
      simp only [List.length_cons] at hidx
      omega
    show (scanGo qdiv beats beatType (idx + 1)
      (scanStep qdiv beats beatType idx s e) rest).lastIdx k ≤ B
    apply ih (idx + 1) _ _ (by omega)
    intro j
    cases e with
    | tuplet t => exact hs j
    | measureInit m => exact hs j
    | measureMeta m => exact hs j
    | noteRest n =>
      simp only [scanStep]
      split_ifs with h1
      · by_cases hj : j = s.prevVoice
        · simp [hj]
          omega
        · simp [hj]
          exact hs j
      · exact hs j

theorem voiceOfIdx_toNat {k : Nat} (h : k ≤ 3) : (voiceOfIdx k).toNat = k := by
  interval_cases k <;> rfl

/-- The synthesized rest's duration does not depend on the voice it is
assigned to. -/
theorem newDefaultRest_dur_voice (rt : RhythmType) (dot : Bool) (w : Voice)
    (a b c : Nat) :
    (NoteData.newDefaultRest rt dot w).getDurationNumeric a b c none =
      (NoteData.newDefaultRest rt dot .one).getDurationNumeric a b c none := rfl

theorem fixVoice_of_none {qdiv : Nat} {s : ScanState}
    (measure : List MusicElement) (k : Nat)
    (hfd : NoteData.fromNumericDuration (s.durs 0 - s.durs k) qdiv = none) :
    fixVoice qdiv s measure k = measure := by
  unfold fixVoice
  rw [hfd]
  split_ifs <;> rfl

theorem fixVoice_of_some {qdiv : Nat} {s : ScanState}
    (measure : List MusicElement) (k : Nat) (rt : RhythmType) (dot : Bool)
    (tm : Option TimeModification)
    (hc : s.durs k ≠ 0 ∧ s.durs k < s.durs 0)
    (hfd : NoteData.fromNumericDuration (s.durs 0 - s.durs k) qdiv =
      some (rt, dot, tm)) :
    fixVoice qdiv s measure k =
      measure.insertIdx (s.lastIdx k)
        (.noteRest (NoteData.newDefaultRest rt dot (voiceOfIdx k))) := by
  unfold fixVoice
  rw [if_pos hc, hfd]

theorem fixVoice_of_skip {qdiv : Nat} {s : ScanState}
    (measure : List MusicElement) (k : Nat)
    (hc : ¬(s.durs k ≠ 0 ∧ s.durs k < s.durs 0)) :
    fixVoice qdiv s measure k = measure := by
  unfold fixVoice
  rw [if_neg hc]

/-- Effect of the corrective-rest pass over voice indices 0..m: with the
tally `s` computed over the original tuplet-free buffer, each processed
voice whose tallied duration is nonzero and below voice 0's gains exactly
the synthesized rest's duration; no other voice total changes, the buffer
stays tuplet-free, and it never shrinks. -/
theorem foldFix_voiceDur (qdiv : Nat) (beats : Beats) (beatType : BeatType)
    (s : ScanState) (measure : List MusicElement)
    (hnt : noTuplets measure = true)
    (hli : ∀ k, s.lastIdx k ≤ measure.length) :
    ∀ m : Nat, m ≤ 4 →
      noTuplets ((List.range m).foldl (fixVoice qdiv s) measure) = true ∧
      measure.length ≤
        ((List.range m).foldl (fixVoice qdiv s) measure).length ∧
      ∀ v : Voice,
        voiceDur qdiv beats beatType v
            ((List.range m).foldl (fixVoice qdiv s) measure) =
          voiceDur qdiv beats beatType v measure +
            (if v.toNat < m ∧ s.durs v.toNat ≠ 0 ∧ s.durs v.toNat < s.durs 0
             then restDurOf qdiv beats beatType (s.durs 0 - s.durs v.toNat)
             else 0) := by
  intro m
  induction m with
  | zero =>
    intro _
    exact ⟨hnt, Nat.le_refl _, fun v => by simp⟩
  | succ m ih =>
    intro hm
    obtain ⟨ihnt, ihlen, ihdur⟩ := ih (by omega)
    rw [List.range_succ, List.foldl_append, List.foldl_cons, List.foldl_nil]
    have hmx : (voiceOfIdx m).toNat = m := voiceOfIdx_toNat (by omega)
    by_cases hc : s.durs m ≠ 0 ∧ s.durs m < s.durs 0
    · cases hfd : NoteData.fromNumericDuration (s.durs 0 - s.durs m) qdiv with
      | none =>
        rw [fixVoice_of_none _ m hfd]
        refine ⟨ihnt, ihlen, fun v => ?_⟩
        rw [ihdur v]
        have hrz : restDurOf qdiv beats beatType (s.durs 0 - s.durs m) = 0 := by
          unfold restDurOf
          rw [hfd]
        by_cases hvm : v.toNat = m
        · rw [hvm, if_neg (fun hh => Nat.lt_irrefl m hh.1),
            if_pos ⟨Nat.lt_succ_self m, hc⟩, hrz]
        · have hiff : (v.toNat < m ∧ s.durs v.toNat ≠ 0 ∧
              s.durs v.toNat < s.durs 0) ↔
              (v.toNat < m + 1 ∧ s.durs v.toNat ≠ 0 ∧
                s.durs v.toNat < s.durs 0) := by
            constructor <;> intro hh <;> exact ⟨by omega, hh.2⟩
          rw [if_congr hiff rfl rfl]
      | some x =>
        obtain ⟨rt, dot, tmod⟩ := x
        rw [fixVoice_of_some _ m rt dot tmod hc hfd]
        have hins : s.lastIdx m ≤
            ((List.range m).foldl (fixVoice qdiv s) measure).length :=
          Nat.le_trans (hli m) ihlen
        refine ⟨noTuplets_insertIdx _ _ _ ihnt,
          Nat.le_trans ihlen (length_le_insertIdx _ _ _), fun v => ?_⟩
        have hrd : restDurOf qdiv beats beatType (s.durs 0 - s.durs m) =
            (NoteData.newDefaultRest rt dot (voiceOfIdx m)).getDurationNumeric
              qdiv beats.asU32 beatType.asU32 none := by
          unfold restDurOf
          rw [hfd, newDefaultRest_dur_voice]
        have hsum :
            voiceDur qdiv beats beatType v
              (((List.range m).foldl (fixVoice qdiv s) measure).insertIdx
                (s.lastIdx m)
                (.noteRest (NoteData.newDefaultRest rt dot (voiceOfIdx m)))) =
            voiceDur qdiv beats beatType v
              ((List.range m).foldl (fixVoice qdiv s) measure) +
              noteContribN qdiv beats beatType v.toNat
                (.noteRest (NoteData.newDefaultRest rt dot (voiceOfIdx m))) := by
          unfold voiceDur
          rw [voiceDurGo_eq_sum _ _ _ _ _ (noTuplets_insertIdx _ _ _ ihnt),
            voiceDurGo_eq_sum _ _ _ _ _ ihnt,
            sum_map_insertIdx _ _ _ _ hins]
        rw [hsum, ihdur v]
        by_cases hvm : v.toNat = m
        · have hvc : noteContribN qdiv beats beatType v.toNat
              (.noteRest (NoteData.newDefaultRest rt dot (voiceOfIdx m))) =
              restDurOf qdiv beats beatType (s.durs 0 - s.durs m) := by
            rw [hrd]
            simp [noteContribN, NoteData.newDefaultRest, hmx, hvm]
          rw [hvc, hvm, if_neg (fun hh => Nat.lt_irrefl m hh.1),
            if_pos ⟨Nat.lt_succ_self m, hc⟩]
          omega
        · have hvm' : ¬(voiceOfIdx m).toNat = v.toNat := by
            rw [hmx]
            exact fun hh => hvm hh.symm
          have hvc : noteContribN qdiv beats beatType v.toNat
              (.noteRest (NoteData.newDefaultRest rt dot (voiceOfIdx m))) = 0 := by
            simp [noteContribN, NoteData.newDefaultRest, hvm']
          rw [hvc]
          have hiff : (v.toNat < m ∧ s.durs v.toNat ≠ 0 ∧
              s.durs v.toNat < s.durs 0) ↔
              (v.toNat < m + 1 ∧ s.durs v.toNat ≠ 0 ∧
                s.durs v.toNat < s.durs 0) := by
            constructor <;> intro hh <;> exact ⟨by omega, hh.2⟩
          rw [if_congr hiff rfl rfl]
          omega
    · rw [fixVoice_of_skip _ m hc]
      refine ⟨ihnt, ihlen, fun v => ?_⟩
      rw [ihdur v]
      by_cases hvm : v.toNat = m
      · rw [hvm, if_neg (fun hh => Nat.lt_irrefl m hh.1),
          if_neg (fun hh => hc hh.2)]
      · have hiff : (v.toNat < m ∧ s.durs v.toNat ≠ 0 ∧
            s.durs v.toNat < s.durs 0) ↔
            (v.toNat < m + 1 ∧ s.durs v.toNat ≠ 0 ∧
              s.durs v.toNat < s.durs 0) := by
          constructor <;> intro hh <;> exact ⟨by omega, hh.2⟩
        rw [if_congr hiff rfl rfl]

/-- C2 (amended): consider a measure buffer without Tuplet elements whose
first element is not a note of a voice above voice 0 (otherwise the
source's `idx - 1` underflows and panics), with an active-voice count of
at most 4 covering every voice that has content, in which voice 0's total
is maximal and every positive discrepancy against voice 0 is exactly
reproduced by the rest that `from_numeric_duration` synthesizes for it.
After `remove_incomplete_voices`, every voice with nonzero total duration
has total equal to voice 0's. -/
theorem c2_remove_incomplete_voices (qdiv : Nat) (beats : Beats)
    (beatType : BeatType) (numVoices : Nat) (measure : List MusicElement)
    (hnv : numVoices ≤ 4)
    (hnt : noTuplets measure = true)
    (hfe : firstElemOk measure = true)
    (hcover : ∀ v : Voice, voiceDur qdiv beats beatType v measure ≠ 0 →
      v.toNat < numVoices)
    (hle : ∀ v : Voice, voiceDur qdiv beats beatType v measure ≤
      voiceDur qdiv beats beatType Voice.one measure)
    (hrep : ∀ v : Voice, voiceDur qdiv beats beatType v measure ≠ 0 →
      voiceDur qdiv beats beatType v measure <
        voiceDur qdiv beats beatType Voice.one measure →
      restDurOf qdiv beats beatType
          (voiceDur qdiv beats beatType Voice.one measure -
            voiceDur qdiv beats beatType v measure) =
        voiceDur qdiv beats beatType Voice.one measure -
          voiceDur qdiv beats beatType v measure) :
    ∀ v : Voice,
      voiceDur qdiv beats beatType v
          (removeIncompleteVoices qdiv beats beatType numVoices measure) ≠ 0 →
      voiceDur qdiv beats beatType v
          (removeIncompleteVoices qdiv beats beatType numVoices measure) =
        voiceDur qdiv beats beatType Voice.one
          (removeIncompleteVoices qdiv beats beatType numVoices measure) := by
  have hrm : removeIncompleteVoices qdiv beats beatType numVoices measure =
      (List.range numVoices).foldl
        (fixVoice qdiv (scanGo qdiv beats beatType 0 scanInit measure))
        measure := by
    unfold removeIncompleteVoices
    rw [if_neg (by omega)]
  have hdurs : ∀ v : Voice,
      (scanGo qdiv beats beatType 0 scanInit measure).durs v.toNat =
        voiceDur qdiv beats beatType v measure := by
    intro v
    rw [scanGo_durs qdiv beats beatType measure hnt 0 scanInit rfl v.toNat]
    unfold voiceDur
    rw [voiceDurGo_eq_sum qdiv beats beatType v measure hnt]
    simp [scanInit]
  have hd0 : (scanGo qdiv beats beatType 0 scanInit measure).durs 0 =
      voiceDur qdiv beats beatType Voice.one measure := hdurs Voice.one
  have hli : ∀ k, (scanGo qdiv beats beatType 0 scanInit measure).lastIdx k ≤
      measure.length := by
    apply scanGo_lastIdx_le qdiv beats beatType measure.length measure 0 scanInit
    · intro k
      simp [scanInit]
    · omega
  obtain ⟨hfnt, hflen, hfdur⟩ :=
    foldFix_voiceDur qdiv beats beatType _ measure hnt hli numVoices hnv
  have hone : voiceDur qdiv beats beatType Voice.one
      ((List.range numVoices).foldl
        (fixVoice qdiv (scanGo qdiv beats beatType 0 scanInit measure))
        measure) =
      voiceDur qdiv beats beatType Voice.one measure := by
    rw [hfdur Voice.one, hdurs Voice.one, hd0,
      if_neg (fun hh => Nat.lt_irrefl _ hh.2.2)]
    omega
  intro v hv
  rw [hrm] at hv ⊢
  rw [hfdur v, hdurs v, hd0] at hv ⊢
  rw [hone]
  by_cases hA0 : voiceDur qdiv beats beatType v measure = 0
  · rw [hA0, if_neg (fun hh => hh.2.1 rfl)] at hv
    simp at hv
  · by_cases hAB : voiceDur qdiv beats beatType v measure <
        voiceDur qdiv beats beatType Voice.one measure
    · rw [if_pos ⟨hcover v hA0, hA0, hAB⟩, hrep v hA0 hAB]
      omega
    · rw [if_neg (fun hh => hAB hh.2.2)]
      have := hle v
      omega

/-- C2 witness: the amended theorem on a concrete two-voice measure where
voice 1 is short a crochet (480 ticks, an exactly representable
discrepancy): both voices end at 960 ticks. -/
theorem c2_remove_incomplete_voices_witness :
    voiceDur 480 .four .four .two
        (removeIncompleteVoices 480 .four .four 2
          [.noteRest ⟨.pitch 60, .none, .minim, false, .noArpeggiation,
            .none, .none, .none, .none, .noChord, .none, .one⟩,
           .noteRest ⟨.pitch 62, .none, .crochet, false, .noArpeggiation,
            .none, .none, .none, .none, .noChord, .none, .two⟩]) =
      voiceDur 480 .four .four .one
        (removeIncompleteVoices 480 .four .four 2
          [.noteRest ⟨.pitch 60, .none, .minim, false, .noArpeggiation,
            .none, .none, .none, .none, .noChord, .none, .one⟩,
           .noteRest ⟨.pitch 62, .none, .crochet, false, .noArpeggiation,
            .none, .none, .none, .none, .noChord, .none, .two⟩]) :=
  c2_remove_incomplete_voices 480 .four .four 2 _ (by decide) (by decide)
    (by decide) (by intro v hvd; revert hvd; cases v <;> decide)
    (by intro v; cases v <;> decide)
    (by intro v h1 h2; revert h1 h2; cases v <;> decide) .two (by decide)

/-- C2 counterexample: on a tuplet-free measure where voice 0 totals 480
ticks (a crochet) and voice 1 totals 180 ticks (a dotted semiquaver), the
300-tick discrepancy has no exact binary/dotted representation, so the
synthesized corrective rest is a plain crochet of 480 ticks; after
`remove_incomplete_voices` voice 1 totals 660 ticks, not voice 0's 480. -/
theorem c2_counterexample :
    voiceDur 480 .four .four .two
        (removeIncompleteVoices 480 .four .four 2
          [.noteRest ⟨.pitch 60, .none, .crochet, false, .noArpeggiation,
            .none, .none, .none, .none, .noChord, .none, .one⟩,
           .noteRest ⟨.pitch 62, .none, .semiQuaver, true, .noArpeggiation,
            .none, .none, .none, .none, .noChord, .none, .two⟩]) = 660 ∧
    voiceDur 480 .four .four .one
        (removeIncompleteVoices 480 .four .four 2
          [.noteRest ⟨.pitch 60, .none, .crochet, false, .noArpeggiation,
            .none, .none, .none, .none, .noChord, .none, .one⟩,
           .noteRest ⟨.pitch 62, .none, .semiQuaver, true, .noArpeggiation,
            .none, .none, .none, .none, .noChord, .none, .two⟩]) = 480 ∧
    (660 : Nat) ≠ 480 := by
  refine ⟨by decide, by decide, by decide⟩

end MusicBin
